import Mathlib

/-!
Shallow embedding of the labeled dense-array engine of `ieeg.calc.mat` and
`ieeg.calc.fast` (repository coganlab/IEEG_toolboxes), together with theorems
settling the specification claims about it.

Conventions of the embedding:
* numpy float values are modelled as `NFloat := Option Rat`, with `none`
  playing the role of the NaN sentinel (`nanv`);
* a numpy `ndarray` is a shape (list of extents) plus a flat row-major buffer;
* label tokens (strings or integers) are the inductive `Token`;
* Python exceptions are values of `PyErr`, and fallible operations return
  `Except PyErr _`.
-/

/-- Decidable equality for `Except` results. -/
def exceptDecEq {ε α : Type} [DecidableEq ε] [DecidableEq α] :
    DecidableEq (Except ε α) := fun x y =>
  match x, y with
  | .ok a, .ok b =>
    if h : a = b then isTrue (by rw [h]) else isFalse (by simp [h])
  | .error a, .error b =>
    if h : a = b then isTrue (by rw [h]) else isFalse (by simp [h])
  | .ok _, .error _ => isFalse (by simp)
  | .error _, .ok _ => isFalse (by simp)

instance {ε α : Type} [DecidableEq ε] [DecidableEq α] :
    DecidableEq (Except ε α) := exceptDecEq

/-- The decimal digit characters. -/
def digitToChar : Nat → Char
  | 0 => '0' | 1 => '1' | 2 => '2' | 3 => '3' | 4 => '4'
  | 5 => '5' | 6 => '6' | 7 => '7' | 8 => '8' | _ => '9'

/-- The decimal digits of `n`, most significant first (fuel-driven so that it
evaluates by kernel reduction). -/
def natToDigits : Nat → Nat → List Char
  | 0, _ => []
  | fuel + 1, n =>
    if n < 10 then [digitToChar n]
    else natToDigits fuel (n / 10) ++ [digitToChar (n % 10)]

/-- Decimal rendering of a natural number. -/
def natToStr (n : Nat) : String := String.mk (natToDigits (n + 1) n)

/-- Decimal rendering of an integer (Python `str(int)`). -/
def intToStr (i : Int) : String :=
  if i < 0 then "-" ++ natToStr (-i).toNat else natToStr i.toNat

/-- The numeric value of a decimal digit character, if it is one. -/
def charDigit (c : Char) : Option Nat :=
  if 48 ≤ c.toNat ∧ c.toNat ≤ 57 then some (c.toNat - 48) else none

/-- Parse a non-empty all-digit character list. -/
def parseDigits : List Char → Option Nat
  | [] => none
  | cs => cs.foldl (fun acc c =>
      match acc, charDigit c with
      | some v, some d => some (v * 10 + d)
      | _, _ => none) (some 0)

/-- Python `int(s)` on a whitespace-free string: an optional sign followed by
decimal digits; anything else raises `ValueError` (modelled as `none`). -/
def pyParseInt (s : String) : Option Int :=
  match s.data with
  | '-' :: rest => (parseDigits rest).map (fun n => -(n : Int))
  | '+' :: rest => (parseDigits rest).map (fun n => (n : Int))
  | cs => (parseDigits cs).map (fun n => (n : Int))

/-- A label token: either a string or an integer, as accepted by `Labels`. -/
inductive Token where
  | str (s : String)
  | num (n : Int)
deriving DecidableEq, Repr

/-- `str(token)`: the string form of a token (Python `str`). -/
def Token.toStr : Token → String
  | .str s => s
  | .num n => intToStr n

/-- `True` iff the token is numeric (models the numeric-dtype test of
`Labels.__new__`). -/
def Token.isNum : Token → Bool
  | .str _ => false
  | .num _ => true

/-- Python exceptions that the modelled code can raise. -/
inductive PyErr where
  | assertionError
  | indexError
  /-- `NameError`: a name (the field) was referenced but is not defined. -/
  | nameError (missing : String)
  | valueError
  | typeError
  | notImplementedError
  /-- Marker for a control path on which the source loops forever
  (`while key < 0: key += 0`). -/
  | nontermination
deriving DecidableEq, Repr

/-- A numpy float value; `none` is the NaN sentinel. -/
abbrev NFloat := Option Rat

/-- The NaN sentinel used for padding. -/
def nanv : NFloat := none

/-- A dense numpy array: a shape and a flat row-major (C-order) buffer. -/
structure NDArray where
  shape : List Nat
  data : List NFloat
deriving DecidableEq, Repr

/-- Well-formedness: the buffer holds exactly one value per position. -/
def NDArray.wf (a : NDArray) : Prop := a.data.length = a.shape.prod

instance (a : NDArray) : Decidable a.wf := by unfold NDArray.wf; infer_instance

/-- `a.size`: the number of elements (numpy `ndarray.size`). -/
def NDArray.size (a : NDArray) : Nat := a.shape.prod

/-- `a.ndim`: the rank (numpy `ndarray.ndim`). -/
def NDArray.ndim (a : NDArray) : Nat := a.shape.length

/-- Cartesian product of a list of lists, leftmost factor varying slowest
(the enumeration order of `itertools.product`). -/
def cartProd {α : Type} : List (List α) → List (List α)
  | [] => [[]]
  | l :: rest => l.flatMap (fun x => (cartProd rest).map (fun t => x :: t))

/-- All multi-indices of a shape, enumerated in row-major (C) order. -/
def allIdx (shape : List Nat) : List (List Nat) :=
  cartProd (shape.map List.range)

/-- Row-major (C-order) flat position of a multi-index. -/
def flatIdxC : List Nat → List Nat → Nat
  | _ :: rest, i :: is => i * rest.prod + flatIdxC rest is
  | _, _ => 0

/-- Column-major (Fortran-order) flat position of a multi-index. -/
def flatIdxF (shape idx : List Nat) : Nat :=
  flatIdxC shape.reverse idx.reverse

/-- Read a buffer cell at a multi-index, with numpy bounds checking. -/
def NDArray.read (a : NDArray) (idx : List Nat) : Except PyErr NFloat :=
  if idx.length = a.shape.length ∧ (idx.zip a.shape).all (fun p => p.1 < p.2)
  then .ok (a.data.getD (flatIdxC a.shape idx) nanv)
  else .error .indexError

/-- Read a buffer cell, yielding the NaN sentinel outside the bounds (used to
express sentinel padding). -/
def NDArray.readPad (a : NDArray) (idx : List Nat) : NFloat :=
  if idx.length = a.shape.length ∧ (idx.zip a.shape).all (fun p => p.1 < p.2)
  then a.data.getD (flatIdxC a.shape idx) nanv
  else nanv

/-- `np.take(a, i, axis)`: the slice of `a` with the given axis fixed at `i`. -/
def NDArray.takeAxis (a : NDArray) (axis i : Nat) : NDArray :=
  let sh := a.shape.eraseIdx axis
  ⟨sh, (allIdx sh).map (fun idx => a.data.getD (flatIdxC a.shape (idx.insertIdx axis i)) nanv)⟩

/-! ### Labels (`ieeg.calc.mat.Labels`) -/

/-- The dtype normalisation of `Labels.__new__`: an all-numeric input keeps its
numeric dtype, any other input is cast elementwise to strings
(`dtype = f'U{...}'`; the width is the maximal token length, so the cast
never truncates). -/
def castTokens (toks : List Token) : List Token :=
  if toks.all Token.isNum then toks
  else toks.map (fun t => Token.str t.toStr)

/-- `Labels.__new__` (mat.py lines 717-736): normalise the dtype and then
assert that the (flattened) tokens are pairwise distinct
(`len(np.unique(arr)) == len(arr)`). -/
def Labels.new (toks : List Token) : Except PyErr (List Token) :=
  let arr := castTokens toks
  if arr.Nodup then .ok arr else .error .assertionError

/-- `Labels.find` (mat.py lines 773-779): the index of the first occurrence of
`v`.  When `v` is absent the source executes
`raise IndexError(f"{value} not found in {arr}")`; the f-string references the
name `arr`, which is not defined in that scope (nor at module level), so the
exception actually raised is `NameError: name 'arr' is not defined`. -/
def Labels.find (toks : List Token) (v : Token) : Except PyErr Nat :=
  match toks.findIdx? (fun t => t = v) with
  | some i => .ok i
  | none => .error (.nameError "arr")

/-- Python `delim.join(parts)`. -/
def pyJoin (delim : String) : List String → String
  | [] => ""
  | [x] => x
  | x :: y :: rest => x ++ delim ++ pyJoin delim (y :: rest)

/-- `Labels.__matmul__` (mat.py lines 748-759): the 2-D grid of
delimiter-joined pairwise concatenations, re-checked by the `Labels`
constructor (flattened uniqueness). -/
def Labels.matmul (a b : List Token) (delim : String) :
    Except PyErr (List (List Token)) :=
  let grid := a.map (fun x => b.map (fun y => Token.str (x.toStr ++ delim ++ y.toStr)))
  if (grid.flatten).Nodup then .ok grid else .error .assertionError

/-! ### The longest-common-subsequence helpers
(`_lcs` and `_longest_common_substring`, mat.py lines 873-888) -/

/-- `_lcs(s1, s2)` (mat.py lines 882-888): position-wise equality flags over
the positions of `s1`.  When `s2` is shorter than `s1` the source raises
`IndexError` at `s2[i]`. -/
def lcsPair {α : Type} [DecidableEq α] (s1 s2 : List α) : Except PyErr (List Bool) :=
  if s1.length ≤ s2.length
  then .ok ((s1.zip s2).map (fun p => p.1 = p.2))
  else .error .indexError

/-- The consecutive pairs of a list. -/
def consecPairs {α : Type} : List α → List (α × α)
  | a :: b :: rest => (a, b) :: consecPairs (b :: rest)
  | _ => []

/-- Pointwise conjunction of a matrix of booleans (`np.all(matrix, axis=0)`);
all rows are required to have the given length. -/
def colAll (width : Nat) (matrix : List (List Bool)) : List Bool :=
  (List.range width).map (fun j => matrix.all (fun r => r.getD j true))

/-- `_longest_common_substring(strings)` (mat.py lines 873-879): the flags of
all consecutive pairs, with an all-`True` row appended for the last tuple (the
`for`/`else`), conjoined column-wise; the first tuple is then filtered by the
resulting mask.  An empty input raises `IndexError` (`strings[-1]`), and
ragged rows make `np.all` fail (modelled as `ValueError`). -/
def longestCommonSubstring {α : Type} [DecidableEq α] (strings : List (List α)) :
    Except PyErr (List α) :=
  match strings with
  | [] => .error .indexError
  | s0 :: rest =>
    match (consecPairs (s0 :: rest)).mapM (fun p => lcsPair p.1 p.2) with
    | .error e => .error e
    | .ok rows =>
      if (rows ++ [List.replicate ((s0 :: rest).getLastD []).length true]).all
          (fun r => r.length = s0.length) then
        .ok ((s0.zip (colAll s0.length
            (rows ++ [List.replicate ((s0 :: rest).getLastD []).length true]))).filterMap
          (fun p => if p.2 then some p.1 else none))
      else .error .valueError

/-- The claim's reading of the helper: the tokens of the first tuple at
exactly the positions where every input tuple carries an equal token, in
their original order. -/
def lcsSpec {α : Type} [DecidableEq α] [Inhabited α]
    (strings : List (List α)) : List α :=
  match strings with
  | [] => []
  | s0 :: _ =>
    (List.range s0.length).filterMap (fun k =>
      if strings.all (fun t => t.getD k default = s0.getD k default)
      then some (s0.getD k default) else none)

instance : Inhabited Token := ⟨.num 0⟩

/-! ### `Labels.decompose` (mat.py lines 761-771), for 2-D label grids

`decompose` is only ever applied to 2-D `Labels` (the fancy-index path of
`__getitem__` and the combined grids of `__matmul__`), so the embedding
covers the 2-D case: `ndim = 2`, axes `0` and `1`. -/

/-- Split a flat list into consecutive rows of width `w`
(`ndarray.reshape(-1, w)`); fails unless `w` divides the length. -/
def chunksGo {α : Type} (w : Nat) : Nat → List α → List (List α)
  | _, [] => []
  | 0, _ :: _ => []
  | fuel + 1, x :: xs =>
    if w = 0 then []
    else ((x :: xs).take w) :: chunksGo w fuel (xs.drop (w - 1))

def chunksOf {α : Type} (w : Nat) (l : List α) : List (List α) :=
  chunksGo w l.length l

/-- `ndarray.reshape(-1, w)` with its size check. -/
def reshapeRows {α : Type} (flat : List α) (w : Nat) :
    Except PyErr (List (List α)) :=
  if w ≠ 0 ∧ flat.length % w = 0 then .ok (chunksOf w flat)
  else .error .valueError

/-- `list(set(xs))`: CPython's set iteration order is hash-dependent;
modelled as first-occurrence deduplication. -/
def pySetList {α : Type} [DecidableEq α] (l : List α) : List α :=
  l.foldl (fun acc x => if x ∈ acc then acc else acc ++ [x]) []

/-- One axis pass of `Labels.decompose`: for each index `j` along the axis,
reshape the fixed-`j` slice into rows of width `ndim = 2`, take the
longest-common-subsequence of those rows (falling back to the set of values
at position `axis` when it is empty), and join with the delimiter. -/
def decomposeAxis (slices : List (List Token)) (axis : Nat) (delim : String) :
    Except PyErr (List Token) :=
  slices.mapM (fun flat => do
    let rows ← reshapeRows flat 2
    let common ← longestCommonSubstring rows
    let common := if common = [] then pySetList (rows.map (fun d => d.getD axis (.num 0)))
                  else common
    pure (Token.str (pyJoin delim (common.map Token.toStr))))

/-- `Labels.decompose` on a 2-D grid `g` (shape `(r, c)`): axis-0 slices are
the rows of `g`, axis-1 slices its columns; each factored label list is then
passed back through the `Labels` constructor (`list(map(Labels, new_labels))`). -/
def Labels.decompose2 (g : List (List Token)) (delim : String) :
    Except PyErr (List (List Token)) := do
  let cols := (List.range (g.headD []).length).map (fun j => g.map (fun row => row.getD j (.num 0)))
  let ax0 ← decomposeAxis g 0 delim
  let ax1 ← decomposeAxis cols 1 delim
  let l0 ← Labels.new ax0
  let l1 ← Labels.new ax1
  pure [l0, l1]

/-- `ndarray.reshape((r, c))` of a 1-D `Labels`, with the numpy size check. -/
def labelsReshape2 (flat : List Token) (r c : Nat) :
    Except PyErr (List (List Token)) :=
  if flat.length = r * c ∧ c ≠ 0 then .ok (chunksOf c flat)
  else .error .valueError

/-! ### The NaN-padding concatenator
(`ieeg.calc.fast.concatenate_arrays`, fast.py lines 174-230) -/

/-- Locate, along the concatenation axis, which input array the global
position `k` falls into, and the local position inside it. -/
def pickInput (arrays : List NDArray) (axis : Nat) (k : Nat) :
    Option (NDArray × Nat) :=
  match arrays with
  | [] => none
  | a :: rest =>
    let e := a.shape.getD axis 0
    if k < e then some (a, k) else pickInput rest axis (k - e)

/-- Modelled from the spec: `nan_concatinate` (from `ieeg.calc._fast.concat`,
a compiled C extension that is not under src/).  Spec 4.1: inputs must agree
in rank; every non-concatenation dimension is padded, independently per
dimension, to the maximum extent across inputs, with padding cells taking the
sentinel value; the concatenation axis itself is the sum of the per-input
extents, unpadded; an empty input collection or an incompatible rank/axis
signals an error. -/
def concatOutShape (arrays : List NDArray) (axis nd : Nat) : List Nat :=
  (List.range nd).map (fun d =>
    if d = axis then (arrays.map (fun a => a.shape.getD d 0)).sum
    else (arrays.map (fun a => a.shape.getD d 0)).foldr max 0)

def nan_concatinate (arrays : List NDArray) (axis : Nat) :
    Except PyErr NDArray :=
  match arrays with
  | [] => .error .valueError
  | a0 :: _ =>
    if (arrays.all (fun a => a.ndim = a0.ndim)) ∧ axis < a0.ndim then
      .ok ⟨concatOutShape arrays axis a0.ndim,
           (allIdx (concatOutShape arrays axis a0.ndim)).map (fun idx =>
             match pickInput arrays axis (idx.getD axis 0) with
             | some p => p.1.readPad (idx.set axis p.2)
             | none => nanv)⟩
    else .error .valueError

/-- `while axis < 0: axis += n`: a non-negative value is kept as is; a
negative one has `n` added until non-negative (its residue mod `n`); with
`n = 0` the loop never terminates. -/
def wrapNegInt (v : Int) (n : Nat) : Except PyErr Nat :=
  if 0 ≤ v then .ok v.toNat
  else if n = 0 then .error .nontermination
  else .ok (v % (n : Int)).toNat

/-- `concatenate_arrays` (fast.py lines 174-230): `axis=None` stacks along a
new leading axis; empty-sized inputs are dropped (`ar.size > 0`); the cast
`astype(float)` is the identity in this model; a negative axis is resolved
against the maximal rank; the core concatenation is `nan_concatinate`.
An empty surviving input list makes `max()` (or the core) raise. -/
def concatenate_arrays (arrays : List NDArray) (axis : Option Int) :
    Except PyErr NDArray :=
  let p : List NDArray × Int := match axis with
    | none => (arrays.map (fun a => ⟨1 :: a.shape, a.data⟩), 0)
    | some v => (arrays, v)
  let kept := p.1.filter (fun a => 0 < a.size)
  match kept with
  | [] => .error .valueError
  | a0 :: rest => do
    let maxnd := ((a0 :: rest).map NDArray.ndim).foldr max 0
    let axN ← wrapNegInt p.2 maxnd
    nan_concatinate (a0 :: rest) axN

/-! ### LabeledArray (`ieeg.calc.mat.LabeledArray`) -/

/-- A labeled dense array: a buffer (shape + flat row-major data) plus one
label list per axis. -/
structure LabeledArray where
  shape : List Nat
  data : List NFloat
  labels : List (List Token)
deriving DecidableEq, Repr

/-- The underlying numeric buffer (`self.__array__()`). -/
def LabeledArray.toND (la : LabeledArray) : NDArray := ⟨la.shape, la.data⟩

/-- Pass each per-axis label list through the `Labels` constructor
(`list(map(lambda l: Labels(l, delimiter), labels))`); the first failure
propagates. -/
def labelsNewAll : List (List Token) → Except PyErr (List (List Token))
  | [] => .ok []
  | l :: rest =>
    match Labels.new l, labelsNewAll rest with
    | .ok x, .ok xs => .ok (x :: xs)
    | .error e, _ => .error e
    | .ok _, .error e => .error e

/-- The label-list padding of `LabeledArray.__new__` (mat.py lines 177-179):
missing trailing label lists default to `range(shape[i])`. -/
def paddedLabels (nd : NDArray) (labels : List (List Token)) :
    List (List Token) :=
  labels ++ ((List.range nd.shape.length).drop labels.length).map
    (fun i => (List.range (nd.shape.getD i 0)).map
      (fun k => Token.num (Int.ofNat k)))

/-- `LabeledArray.__new__` (mat.py lines 173-184): pad the labels, pass each
through the `Labels` constructor, and finally
`assert tuple(map(len, labels)) == obj.shape`. -/
def LabeledArray.new (nd : NDArray) (labels : List (List Token)) :
    Except PyErr LabeledArray :=
  match labelsNewAll (paddedLabels nd labels) with
  | .error e => .error e
  | .ok ls =>
    if ls.map List.length = nd.shape then .ok ⟨nd.shape, nd.data, ls⟩
    else .error .assertionError

/-- Well-formedness of a labeled array: the buffer has one value per
position, and each axis carries one label per position (the shape
invariant). -/
def LabeledArray.wf (la : LabeledArray) : Prop :=
  la.data.length = la.shape.prod ∧ la.labels.map List.length = la.shape

instance (la : LabeledArray) : Decidable la.wf := by
  unfold LabeledArray.wf; infer_instance

/-- `LabeledArray.combine` (mat.py lines 566-623): assert the level pair is
increasing; drop the lower level from the labels and replace the higher one
(shifted down by one) with the flattened label cross product; rebuild the
buffer by concatenating the per-index slices along the lower axis. -/
def LabeledArray.combine (la : LabeledArray) (levels : Nat × Nat) :
    Except PyErr LabeledArray := do
  if levels.2 ≤ levels.1 then .error .assertionError
  else
    let grid ← Labels.matmul (la.labels.getD levels.1 [])
      (la.labels.getD levels.2 []) "-"
    let newLabels := (la.labels.eraseIdx levels.1).set (levels.2 - 1) grid.flatten
    let arrs := (List.range (la.shape.getD levels.1 0)).map
      (fun i => la.toND.takeAxis levels.1 i)
    let newArr ← concatenate_arrays arrs (some (levels.2 - 1))
    LabeledArray.new newArr newLabels

/-! ### The indexing protocol (`__getitem__`/`__setitem__`/`_parse_index`,
mat.py lines 354-433)

The embedded key language covers the key kinds the claims exercise: integer
keys, string label keys, the full slice `:`, and flat label/integer
collections.  Ellipsis, `None`/newaxis, boolean masks and multi-dimensional
fancy-index arrays are not modelled. -/

/-- An element of a collection key: an integer or a label. -/
inductive IKey where
  | int (i : Int)
  | str (s : String)
deriving DecidableEq, Repr

/-- An indexing key. -/
inductive Key where
  | int (i : Int)
  | str (s : String)
  /-- the full slice `:` -/
  | slice
  | list (ks : List IKey)
deriving DecidableEq, Repr

/-- A parsed key, one per axis: a collapsing scalar position, the full range
(`range(shape[dim])`), or a fancy integer collection (kept signed, as the
source leaves collection entries unwrapped). -/
inductive PKey where
  | scalar (i : Nat)
  | range (l : List Nat)
  | fancy (l : List Int)
deriving DecidableEq, Repr

/-- numpy resolution of a (possibly negative) fancy index against extent
`n`. -/
def resolveFancy (n : Nat) (v : Int) : Except PyErr Nat :=
  if 0 ≤ v ∧ v < n then .ok v.toNat
  else if -(n : Int) ≤ v ∧ v < 0 then .ok (v + n).toNat
  else .error .indexError

/-- Parse one key against its axis (`_parse_index` body, mat.py lines
359-390): strings go through `Labels.find`; scalar integers have the axis
extent added while negative; a slice selects from `range(shape[dim])`;
collection entries have their strings resolved and integers kept. -/
def parseKey (la : LabeledArray) (dim : Nat) : Key → Except PyErr PKey
  | .int i => do pure (.scalar (← wrapNegInt i (la.shape.getD dim 0)))
  | .str s => do pure (.scalar (← Labels.find (la.labels.getD dim []) (.str s)))
  | .slice => pure (.range (List.range (la.shape.getD dim 0)))
  | .list ks => do
    pure (.fancy (← ks.mapM (fun k =>
      match k with
      | .int i => pure i
      | .str s => do
        pure (Int.ofNat (← Labels.find (la.labels.getD dim []) (.str s))))))

/-- The key-processing loop of `_parse_index`: parse each key at its axis (a
key beyond the rank raises `IndexError`), and leave every untouched axis as
its full range (`new_keys = [range(self.shape[i]) ...]`). -/
def parseIndexGo (la : LabeledArray) : Nat → List Key → Except PyErr (List PKey)
  | dim, [] =>
    .ok (((List.range la.shape.length).drop dim).map
      (fun d => .range (List.range (la.shape.getD d 0))))
  | dim, k :: rest =>
    if la.shape.length ≤ dim then .error .indexError
    else do
      let p ← parseKey la dim k
      let ps ← parseIndexGo la (dim + 1) rest
      .ok (p :: ps)

/-- `_parse_index` (restricted to the embedded key fragment). -/
def parseIndex (la : LabeledArray) (keys : List Key) : Except PyErr (List PKey) :=
  parseIndexGo la 0 keys

/-- Fancy-index selection of labels (`self.labels[i][label_key]`), with
numpy bounds checking. -/
def labelSel (toks : List Token) (sel : List Nat) : Except PyErr (List Token) :=
  if sel.all (fun t => t < toks.length) then
    .ok (sel.map (fun t => toks.getD t (.num 0)))
  else .error .indexError

/-- The label-collection loop of `__getitem__` (mat.py lines 407-418): one
fresh label list per surviving (non-scalar) axis, selected by the parsed
key.  (The `ndim > 1` decompose branch belongs to the unmodelled
multi-dimensional fancy-index path.) -/
def newLabelsGo (labels : List (List Token)) : Nat → List PKey →
    Except PyErr (List (List Token))
  | _, [] => .ok []
  | i, .scalar _ :: rest => newLabelsGo labels (i + 1) rest
  | i, .range l :: rest =>
    match labelSel (labels.getD i []) l, newLabelsGo labels (i + 1) rest with
    | .ok sel, .ok xs => .ok (sel :: xs)
    | .error e, _ => .error e
    | .ok _, .error e => .error e
  | i, .fancy l :: rest =>
    match l.mapM (resolveFancy (labels.getD i []).length) with
    | .error e => .error e
    | .ok sel =>
      match labelSel (labels.getD i []) sel, newLabelsGo labels (i + 1) rest with
      | .ok picked, .ok xs => .ok (picked :: xs)
      | .error e, _ => .error e
      | .ok _, .error e => .error e

/-- Resolve the parsed keys into one position list per axis, flagging whether
the axis survives; scalar and fancy positions get numpy bounds checks. -/
def dimLists (shape : List Nat) : Nat → List PKey →
    Except PyErr (List (Bool × List Nat))
  | _, [] => .ok []
  | d, .scalar i :: rest =>
    if i < shape.getD d 0 then
      match dimLists shape (d + 1) rest with
      | .ok xs => .ok ((false, [i]) :: xs)
      | .error e => .error e
    else .error .indexError
  | d, .range l :: rest =>
    match dimLists shape (d + 1) rest with
    | .ok xs => .ok ((true, l) :: xs)
    | .error e => .error e
  | d, .fancy l :: rest =>
    match l.mapM (resolveFancy (shape.getD d 0)), dimLists shape (d + 1) rest with
    | .ok sel, .ok xs => .ok ((true, sel) :: xs)
    | .error e, _ => .error e
    | .ok _, .error e => .error e

/-- The result of `__getitem__`: a bare scalar when every axis collapses,
otherwise a labeled sub-array. -/
inductive GetRes where
  | scalar (v : NFloat)
  | arr (la : LabeledArray)
deriving DecidableEq, Repr

/-- Whether a parsed key came from a collection (an advanced index). -/
def PKey.isFancy : PKey → Bool
  | .fancy _ => true
  | _ => false

/-- The shape of an indexing result: the selection length of every surviving
axis. -/
def outShapeOf (dl : List (Bool × List Nat)) : List Nat :=
  (dl.filter Prod.fst).map (fun p => p.2.length)

/-- The buffer of an indexing result: the selected positions enumerated in
row-major order. -/
def outDataOf (la : LabeledArray) (dl : List (Bool × List Nat)) : List NFloat :=
  (cartProd (dl.map Prod.snd)).map
    (fun idx => la.data.getD (flatIdxC la.shape idx) nanv)

/-- `__getitem__` (mat.py lines 403-429): parse the keys, compute the
surviving axes' fresh labels, index the buffer, return the bare scalar for a
0-d result, and assert that the result rank matches the number of computed
label lists.  Two or more collection keys take numpy's broadcasting path,
which the class does not support (docstring Notes: use array indices one at
a time). -/
def LabeledArray.getitem (la : LabeledArray) (keys : List Key) :
    Except PyErr GetRes :=
  match parseIndex la keys with
  | .error e => .error e
  | .ok pks =>
    if 2 ≤ (pks.filter PKey.isFancy).length then .error .notImplementedError
    else
      match newLabelsGo la.labels 0 pks, dimLists la.shape 0 pks with
      | .error e, _ => .error e
      | .ok _, .error e => .error e
      | .ok newLabels, .ok dl =>
        if outShapeOf dl = [] then .ok (.scalar ((outDataOf la dl).getD 0 nanv))
        else if (outShapeOf dl).length = newLabels.length then
          .ok (.arr ⟨outShapeOf dl, outDataOf la dl, newLabels⟩)
        else .error .assertionError

/-- The flat buffer positions addressed by an assignment. -/
def writePositions (shape : List Nat) (dl : List (Bool × List Nat)) :
    List Nat :=
  (cartProd (dl.map Prod.snd)).map (flatIdxC shape)

/-- Write `v` into every addressed position of a buffer. -/
def writeAt (data : List NFloat) (positions : List Nat) (v : Rat) :
    List NFloat :=
  data.enum.map (fun p => if p.1 ∈ positions then some v else p.2)

/-- `__setitem__` (mat.py lines 431-433): resolve the keys exactly as a read
does (`self._to_coords`), then write the value through the buffer at every
addressed position; the labels are left untouched. -/
def LabeledArray.setitem (la : LabeledArray) (keys : List Key) (v : Rat) :
    Except PyErr LabeledArray :=
  match parseIndex la keys with
  | .error e => .error e
  | .ok pks =>
    if 2 ≤ (pks.filter PKey.isFancy).length then .error .notImplementedError
    else
      match dimLists la.shape 0 pks with
      | .error e => .error e
      | .ok dl =>
        .ok ⟨la.shape, writeAt la.data (writePositions la.shape dl) v, la.labels⟩

/-! ### `label_reshape` (mat.py lines 782-870) and
`LabeledArray._reshape` (mat.py lines 484-535)

`label_reshape` materialises the full cross product of the (stringified)
per-axis label tuples in the requested fill order, reshapes it to the target
shape (with one trailing width-`len(labels)` axis holding the tuples), and
factors each output axis with the longest-common-subsequence helper.  The
`U{m}` dtype is as wide as the longest token, so the char cast never
truncates. -/

/-- The cross product of the stringified labels in the fill order of the
source: `itertools.product(*labels)` for C, and the reversed product with
each tuple re-reversed for F. -/
def prodOrder (slabels : List (List String)) (order : Char) :
    List (List String) :=
  if order = 'F' then (cartProd slabels.reverse).map List.reverse
  else cartProd slabels

/-- The label tuple stored at multi-index `idx` of the reshaped `out` tensor:
reshaping the sequentially filled flat tuple list in order `order` places the
tuple with flat position `flatIdx_order(shape, idx)` there (the trailing
width axis stays contiguous under either order). -/
def tupleAt (slabels : List (List String)) (shape : List Nat) (order : Char)
    (idx : List Nat) : List String :=
  (prodOrder slabels order).getD
    (if order = 'F' then flatIdxF shape idx else flatIdxC shape idx) []

/-- `np.take(out, j, axis=i).reshape(-1, len(labels))`: the tuples whose
axis-`i` coordinate is `j`, enumerated row-major over the remaining axes. -/
def rowsFor (slabels : List (List String)) (shape : List Nat) (order : Char)
    (i j : Nat) : List (List String) :=
  (allIdx (shape.eraseIdx i)).map
    (fun idx2 => tupleAt slabels shape order (idx2.insertIdx i j))

/-- The fallback of the factoring loop when no common subsequence exists:
`sorted(list(set(d[i] for d in row)), key=labels[i].index)` — the distinct
values at position `i`, ordered by their first occurrence in the axis's
original labels; a value absent from them makes `.index` raise. -/
def lcsFallback (axisLabels : List String) (rows : List (List String))
    (i : Nat) : Except PyErr (List String) :=
  let uniq := pySetList (rows.map (fun d => d.getD i ""))
  if uniq.all (fun s => s ∈ axisLabels) then
    .ok ((pySetList axisLabels).filter (fun s => s ∈ uniq))
  else .error .valueError

/-- One step of the factoring loop of `label_reshape` (axis `i`, index `j`):
the longest common subsequence of the tuple group (with the sorted-set
fallback when it is empty), joined with the delimiter. -/
def factorOne (slabels : List (List String)) (shape : List Nat)
    (order : Char) (delim : String) (i j : Nat) : Except PyErr String :=
  match longestCommonSubstring (rowsFor slabels shape order i j) with
  | .error e => .error e
  | .ok common =>
    if common = [] then
      match lcsFallback (slabels.getD i []) (rowsFor slabels shape order i j) i with
      | .error e => .error e
      | .ok fb => .ok (pyJoin delim fb)
    else .ok (pyJoin delim common)

/-- The inner factoring loop of `label_reshape` for one output axis `i`. -/
def axisFactor (slabels : List (List String)) (shape : List Nat)
    (order : Char) (delim : String) (i : Nat) : Except PyErr (List String) :=
  (List.range (shape.getD i 0)).mapM (factorOne slabels shape order delim i)

/-- The type-reconversion loop of `label_reshape` (mat.py lines 865-869):
when some original axis carried numeric tokens, try `int()` on every joined
label of the axis and replace them only if all parse (a `ValueError` keeps
the strings).  Python `int()` parsing is modelled by `pyParseInt`. -/
def axisConvert (types : List Bool) (joined : List String) : List Token :=
  if types.any id then
    match joined.mapM pyParseInt with
    | some ns => ns.map Token.num
    | none => joined.map Token.str
  else joined.map Token.str

/-- One output axis of `label_reshape`: the `len(labels[i]) == dim == 1`
special case short-circuits both the factoring and the conversion for that
axis (`continue`); otherwise the axis is factored and reconverted
(`types` uses the type of each axis's first token, `type(x[0])`). -/
def reshapeOneAxis (labels : List (List Token)) (shape : List Nat)
    (order : Char) (delim : String) (i : Nat) : Except PyErr (List Token) :=
  if ((labels.map (fun l => l.map Token.toStr)).getD i []).length = shape.getD i 0 ∧
      shape.getD i 0 = 1 then
    .ok (((labels.map (fun l => l.map Token.toStr)).getD i []).map Token.str)
  else
    match axisFactor (labels.map (fun l => l.map Token.toStr)) shape order delim i with
    | .error e => .error e
    | .ok joined =>
      .ok (axisConvert (labels.map (fun l => (l.headD default).isNum)) joined)

/-- `label_reshape` (mat.py lines 782-870): stringify the labels, factor each
output axis from the cross-product tuple tensor, and reconvert numeric
types. -/
def label_reshape (labels : List (List Token)) (shape : List Nat)
    (order : Char) (delim : String) : Except PyErr (List (List Token)) :=
  (List.range shape.length).mapM (reshapeOneAxis labels shape order delim)

/-- `ndarray.flatten(order)`: for F order the first axis varies fastest. -/
def NDArray.flattenOrd (a : NDArray) (order : Char) : List NFloat :=
  if order = 'F' then
    (allIdx a.shape.reverse).map
      (fun ridx => a.data.getD (flatIdxC a.shape ridx.reverse) nanv)
  else a.data

/-- `ndarray.reshape(shape, order)`: flatten in the given order and refill
the target shape in the same order; the element count must match. -/
def NDArray.reshapeOrd (a : NDArray) (shape : List Nat) (order : Char) :
    Except PyErr NDArray :=
  if a.shape.prod = shape.prod then
    .ok ⟨shape, (allIdx shape).map (fun idx =>
      (a.flattenOrd order).getD
        (if order = 'F' then flatIdxF shape idx else flatIdxC shape idx) nanv)⟩
  else .error .valueError

/-- `LabeledArray._reshape` (mat.py lines 484-535): reshape the buffer,
recompute the labels with `label_reshape`, and rebuild through the
constructor (which re-runs the shape assertion and label uniqueness). -/
def LabeledArray.reshapeRelabeled (la : LabeledArray) (shape : List Nat)
    (order : Char) : Except PyErr LabeledArray := do
  let nd ← la.toND.reshapeOrd shape order
  let nl ← label_reshape la.labels shape order "-"
  LabeledArray.new nd nl

/-! ### The nested-mapping bridge (`from_dict` / `inner_array` /
`inner_all_keys`, mat.py lines 239-273, 916-964, 979-1022) -/

mutual
/-- A nested mapping value: a scalar, a 1-D numeric array leaf, or a nested
mapping. -/
inductive NData where
  | scalar (v : Rat)
  | arr1d (vs : List Rat)
  | dict (entries : NEntries)
deriving DecidableEq, Repr

/-- The ordered key/value entries of a nested mapping. -/
inductive NEntries where
  | nil
  | cons (k : Token) (v : NData) (rest : NEntries)
deriving DecidableEq, Repr
end

/-- The keys of a mapping, in insertion order (`data.keys()`). -/
def NEntries.keysOf : NEntries → List Token
  | .nil => []
  | .cons k _ rest => k :: rest.keysOf

/-- An intermediate Python value produced by `inner_array`: a bare scalar, an
ndarray, or a non-numeric object (a dict that survived untouched). -/
inductive PyVal where
  | scalar (v : Rat)
  | ndarray (a : NDArray)
  | obj (d : NData)
deriving DecidableEq, Repr

/-- `np.expand_dims(value, 0)`: a scalar becomes a shape-`(1,)` array, an
array gains a leading extent-1 axis; a dict object cannot be expanded. -/
def PyVal.expandDims0 : PyVal → Except PyErr NDArray
  | .scalar v => .ok ⟨[1], [some v]⟩
  | .ndarray a => .ok ⟨1 :: a.shape, a.data⟩
  | .obj _ => .error .typeError

/-- `concatenate_arrays(values, axis=None)` applied to the mixed scalar/array
collection `inner_array` gathers: the `axis=None` branch expands a leading
axis on every input and then concatenates along axis 0. -/
def concatVals (vals : List PyVal) : Except PyErr NDArray := do
  let arrays ← vals.mapM PyVal.expandDims0
  concatenate_arrays arrays (some 0)

mutual
/-- `inner_array` (mat.py lines 979-1022): a scalar is returned as is; a
mapping's values are converted recursively, `None` results dropped, and the
survivors concatenated along a new leading axis; an empty survivor list falls
through to `np.atleast_1d`, which wraps the dict itself (length 1, returned
unchanged); an array leaf is returned `None` when empty and as the array
otherwise. -/
def inner_array : NData → Except PyErr (Option PyVal)
  | .scalar v => .ok (some (.scalar v))
  | .arr1d vs =>
    .ok (if vs.length = 0 then none else some (.ndarray ⟨[vs.length], vs.map some⟩))
  | .dict es => do
    let opts ← innerArrayEntries es
    let arr := opts.reduceOption
    if 0 < arr.length then do
      let nd ← concatVals arr
      .ok (some (.ndarray nd))
    else .ok (some (.obj (.dict es)))

def innerArrayEntries : NEntries → Except PyErr (List (Option PyVal))
  | .nil => .ok []
  | .cons _ v rest => do
    let x ← inner_array v
    let xs ← innerArrayEntries rest
    .ok (x :: xs)
end

/-- `add_to_list_if_not_present` (mat.py lines 891-913): extend `lst` with
the unseen elements of `element`, preserving order and skipping elements
already seen. -/
def add_to_list_if_not_present (lst element : List Token) : List Token :=
  element.foldl (fun acc x => if x ∈ acc then acc else acc ++ [x]) lst

mutual
/-- `inner_all_keys` (mat.py lines 916-964): walk the mapping, collecting at
each depth the first-seen union of the keys observed there; a 1-D array leaf
contributes its row indices. -/
def innerAllKeys : NData → List (List Token) → Nat → List (List Token)
  | .scalar _, keys, _ => keys
  | .arr1d vs, keys, lvl =>
    let rows := (List.range vs.length).map (fun i => Token.num i)
    if keys.length < lvl + 1 then keys ++ [rows]
    else keys.set lvl (add_to_list_if_not_present (keys.getD lvl []) rows)
  | .dict es, keys, lvl =>
    let keys := if keys.length < lvl + 1 then keys ++ [es.keysOf]
                else keys.set lvl (add_to_list_if_not_present (keys.getD lvl []) es.keysOf)
    innerAllKeysEntries es keys lvl

def innerAllKeysEntries : NEntries → List (List Token) → Nat → List (List Token)
  | .nil, keys, _ => keys
  | .cons _ v rest, keys, lvl =>
    innerAllKeysEntries rest (innerAllKeys v keys (lvl + 1)) lvl
end

/-- `LabeledArray.from_dict` (mat.py lines 239-273): convert the mapping to a
buffer with `inner_array` and to per-level key lists with `inner_all_keys`,
then construct the labeled array.  A top-level scalar makes `inner_all_keys`
return `None`, so `list(None)` in the constructor raises `TypeError`; a
non-array `inner_array` result (empty mapping) likewise fails in the
constructor. -/
def LabeledArray.from_dict (d : NData) : Except PyErr LabeledArray := do
  let arrOpt ← inner_array d
  let keys := innerAllKeys d [] 0
  match arrOpt with
  | some (.ndarray nd) => LabeledArray.new nd keys
  | _ => .error .typeError

/-! ## Helper lemmas -/

theorem castTokens_length (toks : List Token) :
    (castTokens toks).length = toks.length := by
  unfold castTokens; split <;> simp

theorem Labels.new_ok {toks out : List Token} (h : Labels.new toks = .ok out) :
    out = castTokens toks ∧ out.Nodup := by
  unfold Labels.new at h
  by_cases hn : (castTokens toks).Nodup <;> simp [hn] at h
  exact ⟨h.symm, h ▸ hn⟩

theorem Labels.new_err {toks : List Token} (h : ¬ (castTokens toks).Nodup) :
    Labels.new toks = .error .assertionError := by
  unfold Labels.new; simp [h]

theorem labelsNewAll_ok {ls out : List (List Token)}
    (h : labelsNewAll ls = .ok out) : out.map List.length = ls.map List.length := by
  induction ls generalizing out with
  | nil => unfold labelsNewAll at h; cases h; rfl
  | cons l rest ih =>
    unfold labelsNewAll at h
    cases hl : Labels.new l with
    | error e => rw [hl] at h; simp at h
    | ok x =>
      rw [hl] at h
      cases hr : labelsNewAll rest with
      | error e => rw [hr] at h; simp at h
      | ok xs =>
        rw [hr] at h
        simp only [Except.ok.injEq] at h
        subst h
        simp [(Labels.new_ok hl).1, castTokens_length, ih hr]

theorem labelsNewAll_err {ls : List (List Token)} {e : PyErr}
    (h : labelsNewAll ls = .error e) : e = .assertionError := by
  induction ls with
  | nil => unfold labelsNewAll at h; cases h
  | cons l rest ih =>
    unfold labelsNewAll at h
    cases hl : Labels.new l with
    | error e2 =>
      rw [hl] at h
      simp only [Except.error.injEq] at h
      subst h
      unfold Labels.new at hl
      by_cases hn : (castTokens l).Nodup <;> simp [hn] at hl
      exact hl.symm
    | ok x =>
      rw [hl] at h
      cases hr : labelsNewAll rest with
      | error e2 =>
        rw [hr] at h
        simp only [Except.error.injEq] at h
        exact ih (h ▸ hr)
      | ok xs => rw [hr] at h; simp at h

/-! ## C1: the shape invariant of construction -/

/-- C1: a successfully constructed `LabeledArray` satisfies
`len(labels[i]) == shape[i]` on every axis (the labels' lengths list equals
the shape), and construction with any provided label list whose length
differs from its axis extent fails with the fatal shape-mismatch (assertion)
error. -/
theorem c1_construction_shape_invariant (nd : NDArray)
    (labels : List (List Token)) :
    (∀ la, LabeledArray.new nd labels = .ok la →
      la.labels.map List.length = la.shape ∧ la.shape = nd.shape ∧
      la.data = nd.data) ∧
    (∀ i, i < labels.length → i < nd.shape.length →
      (labels.getD i []).length ≠ nd.shape.getD i 0 →
      ∀ la, LabeledArray.new nd labels ≠ .ok la) := by
  constructor
  · intro la h
    unfold LabeledArray.new at h
    cases hm : labelsNewAll (paddedLabels nd labels) with
    | error e => rw [hm] at h; simp at h
    | ok ls =>
      rw [hm] at h
      by_cases hc : ls.map List.length = nd.shape <;> simp [hc] at h
      subst h
      exact ⟨hc, rfl, rfl⟩
  · intro i hi hish hne la h
    unfold LabeledArray.new at h
    cases hm : labelsNewAll (paddedLabels nd labels) with
    | error e => rw [hm] at h; simp at h
    | ok ls =>
      rw [hm] at h
      by_cases hc : ls.map List.length = nd.shape <;> simp [hc] at h
      have hlen := labelsNewAll_ok hm
      apply hne
      have h1 : ((paddedLabels nd labels).map List.length).getD i 0 =
          (labels.getD i []).length := by
        unfold paddedLabels
        rw [List.getD_eq_getElem?_getD, List.getElem?_map, List.getElem?_append,
          if_pos hi, List.getD_eq_getElem?_getD]
        cases hx : labels[i]? with
        | none => simp [List.getElem?_eq_none_iff] at hx; omega
        | some x => simp [hx]
      have h2 : (labels.getD i []).length = nd.shape.getD i 0 := by
        rw [← h1, ← hlen, hc]
      exact h2

/-- C1 witness: shape `(2,)` with labels `("a","b")` constructs and satisfies
the invariant; the same buffer with a one-label list is rejected. -/
theorem c1_construction_shape_invariant_witness :
    ((LabeledArray.new ⟨[2], [some 1, some 2]⟩ [[.str "a", .str "b"]] =
      .ok ⟨[2], [some 1, some 2], [[.str "a", .str "b"]]⟩) ∧
     (∀ la, LabeledArray.new ⟨[2], [some 1, some 2]⟩ [[.str "a"]] ≠ .ok la)) := by
  constructor
  · decide
  · exact (c1_construction_shape_invariant ⟨[2], [some 1, some 2]⟩
      [[.str "a"]]).2 0 (by decide) (by decide) (by decide)

/-! ## C9: label uniqueness -/

/-- C9: constructing a Label Set from tokens containing a repeated value
fails with the fatal construction (assertion) error, and every successfully
constructed Label Set is duplicate-free. -/
theorem c9_label_uniqueness (toks : List Token) :
    (¬ toks.Nodup → Labels.new toks = .error .assertionError) ∧
    (∀ out, Labels.new toks = .ok out → out.Nodup) := by
  constructor
  · intro hdup
    apply Labels.new_err
    intro hcast
    apply hdup
    unfold castTokens at hcast
    split at hcast
    · exact hcast
    · exact hcast.of_map _
  · intro out h
    exact (Labels.new_ok h).2

/-- C9 witness: a duplicated token is rejected; a clean Label Set constructs
and is duplicate-free. -/
theorem c9_label_uniqueness_witness :
    (Labels.new [.str "a", .str "a"] = .error .assertionError) ∧
    ([Token.str "a", Token.str "b"].Nodup) := by
  refine ⟨(c9_label_uniqueness [.str "a", .str "a"]).1 (by decide), ?_⟩
  exact (c9_label_uniqueness [.str "a", .str "b"]).2 _ (by decide)

/-! ## C7: `find` locates the first occurrence, and errors on absence -/

theorem find_cons (t : Token) (rest : List Token) (v : Token) :
    Labels.find (t :: rest) v =
      if t = v then .ok 0
      else match Labels.find rest v with
        | .ok i => .ok (i + 1)
        | .error e => .error e := by
  unfold Labels.find
  rw [List.findIdx?_cons]
  by_cases h : t = v
  · simp [h]
  · rw [decide_eq_false h]
    simp only [Bool.false_eq_true, if_false, List.findIdx?_succ]
    cases List.findIdx? (fun t => decide (t = v)) rest 0 <;> simp [h]

/-- C7: for every Label Set and token, `find` returns the position of the
first occurrence when the token is present; when it is absent, the lookup
signals an error to the caller — which, because the error message's f-string
references the undefined name `arr`, is a `NameError` rather than the
intended `IndexError`. -/
theorem c7_find_first_occurrence (toks : List Token) (v : Token) :
    (v ∈ toks → ∃ i, Labels.find toks v = .ok i ∧ i < toks.length ∧
      toks.getD i default = v ∧ ∀ j, j < i → toks.getD j default ≠ v) ∧
    (v ∉ toks → Labels.find toks v = .error (.nameError "arr")) := by
  induction toks with
  | nil =>
    refine ⟨fun h => absurd h (List.not_mem_nil v), fun _ => ?_⟩
    unfold Labels.find
    simp [List.findIdx?_nil]
  | cons t rest ih =>
    constructor
    · intro hmem
      rw [find_cons]
      by_cases ht : t = v
      · exact ⟨0, by simp [ht], Nat.succ_pos _, by simpa using ht,
          fun j hj => absurd hj (Nat.not_lt_zero j)⟩
      · have hrest : v ∈ rest := by
          rcases List.mem_cons.mp hmem with h | h
          · exact absurd h.symm ht
          · exact h
        obtain ⟨i, hfind, hlt, hget, hfirst⟩ := ih.1 hrest
        refine ⟨i + 1, by simp [ht, hfind], by simpa using hlt, by simpa using hget, ?_⟩
        intro j hj
        cases j with
        | zero => simpa using ht
        | succ j2 =>
          have := hfirst j2 (Nat.lt_of_succ_lt_succ hj)
          simpa using this
    · intro hnmem
      rw [find_cons]
      have ht : t ≠ v := fun h => hnmem (h ▸ List.mem_cons_self t rest)
      have hrest : v ∉ rest := fun h => hnmem (List.mem_cons_of_mem t h)
      simp [ht, ih.2 hrest]

/-- C7 witness: on `("x","y")`, the token `"y"` is found at position 1 and a
missing token surfaces the (name) error. -/
theorem c7_find_first_occurrence_witness :
    (Labels.find [.str "x", .str "y"] (.str "y") = .ok 1) ∧
    (Labels.find [.str "x", .str "y"] (.str "z") =
      .error (.nameError "arr")) := by
  constructor
  · obtain ⟨i, hfind, hlt, hget, hfirst⟩ :=
      (c7_find_first_occurrence [.str "x", .str "y"] (.str "y")).1 (by decide)
    have h2 : i < 2 := by simpa using hlt
    have h3 : i = 0 ∨ i = 1 := by omega
    rcases h3 with h3 | h3
    · subst h3; exact absurd hget (by decide)
    · subst h3; exact hfind
  · exact (c7_find_first_occurrence [.str "x", .str "y"] (.str "z")).2 (by decide)

/-! ## C10: the longest-common-subsequence helper -/

theorem consecPairs_mem {α : Type} {p : α × α} :
    ∀ {l : List α}, p ∈ consecPairs l → p.1 ∈ l ∧ p.2 ∈ l
  | [], h => by simp [consecPairs] at h
  | [_], h => by simp [consecPairs] at h
  | a :: b :: rest, h => by
    rw [show consecPairs (a :: b :: rest) = (a, b) :: consecPairs (b :: rest)
      from rfl] at h
    rcases List.mem_cons.mp h with h | h
    · subst h; exact ⟨List.mem_cons_self _ _, List.mem_cons_of_mem _ (List.mem_cons_self _ _)⟩
    · have := consecPairs_mem h
      exact ⟨List.mem_cons_of_mem _ this.1, List.mem_cons_of_mem _ this.2⟩

theorem mapM_ok_of {α β : Type} {f : α → Except PyErr β} {g : α → β} :
    ∀ {l : List α}, (∀ x ∈ l, f x = .ok (g x)) → l.mapM f = .ok (l.map g)
  | [], _ => rfl
  | x :: xs, h => by
    rw [List.mapM_cons, h x (List.mem_cons_self _ _),
      mapM_ok_of (fun y hy => h y (List.mem_cons_of_mem _ hy))]
    rfl

theorem getLastD_cons_mem {α : Type} (x : α) (l : List α) (d : α) :
    (x :: l).getLastD d ∈ x :: l := by
  induction l generalizing x with
  | nil => simp [List.getLastD]
  | cons y ys ih =>
    rw [show (x :: y :: ys).getLastD d = (y :: ys).getLastD d from rfl]
    exact List.mem_cons_of_mem _ (ih y)

theorem getD_replicate_true (n j : Nat) :
    (List.replicate n true).getD j true = true := by
  induction n generalizing j with
  | zero => simp
  | succ m ih =>
    cases j <;>
      simp [List.replicate_succ, List.getD_cons_zero, List.getD_cons_succ, ih]

/-- Position-wise agreement chained over consecutive pairs is agreement of
every tuple with the first tuple. -/
theorem consec_chain {α : Type} [DecidableEq α] [Inhabited α] (k : Nat) :
    ∀ (s0 : List α) (rest : List (List α)),
      ((∀ p ∈ consecPairs (s0 :: rest),
          p.1.getD k default = p.2.getD k default) ↔
        (∀ t ∈ s0 :: rest, t.getD k default = s0.getD k default))
  | s0, [] => by
    simp [consecPairs]
  | s0, s1 :: rest => by
    rw [show consecPairs (s0 :: s1 :: rest) = (s0, s1) :: consecPairs (s1 :: rest)
      from rfl]
    constructor
    · intro h t ht
      have h01 : s0.getD k default = s1.getD k default :=
        h (s0, s1) (List.mem_cons_self _ _)
      rcases List.mem_cons.mp ht with ht | ht
      · subst ht; rfl
      · have hrec := (consec_chain k s1 rest).mp
          (fun p hp => h p (List.mem_cons_of_mem _ hp)) t ht
        rw [hrec, h01]
    · intro h p hp
      have h01 : s1.getD k default = s0.getD k default :=
        h s1 (List.mem_cons_of_mem _ (List.mem_cons_self _ _))
      rcases List.mem_cons.mp hp with hp | hp
      · subst hp; exact h01.symm
      · refine (consec_chain k s1 rest).mpr ?_ p hp
        intro t ht
        rw [h t (List.mem_cons_of_mem _ ht), h01]

/-- Selecting a list by a same-length boolean mask, position by position. -/
theorem zip_filterMap_mask {α : Type} [Inhabited α] :
    ∀ (l : List α) (m : List Bool), m.length = l.length →
      ((l.zip m).filterMap (fun p => if p.2 then some p.1 else none) =
        (List.range l.length).filterMap
          (fun k => if m.getD k true then some (l.getD k default) else none))
  | [], m, h => by simp
  | x :: xs, [], h => by simp at h
  | x :: xs, b :: mrest, h => by
    simp only [List.length_cons, List.range_succ_eq_map, List.zip_cons_cons,
      List.filterMap_cons, List.filterMap_map]
    have ih := zip_filterMap_mask xs mrest (by simpa using h)
    cases b <;>
      simp only [List.getD_cons_zero, List.getD_cons_succ, if_true, if_false,
        ite_true, ite_false] <;>
      rw [ih] <;> rfl

/-- The behaviour of `_longest_common_substring` on a non-empty family of
equal-length tuples: the tokens of the first tuple at exactly the positions
where all tuples agree. -/
theorem lcs_eq_spec {α : Type} [DecidableEq α] [Inhabited α]
    (s0 : List α) (rest : List (List α))
    (hlen : ∀ t ∈ s0 :: rest, t.length = s0.length) :
    longestCommonSubstring (s0 :: rest) = .ok (lcsSpec (s0 :: rest)) := by
  have hmapM : (consecPairs (s0 :: rest)).mapM (fun p => lcsPair p.1 p.2) =
      .ok ((consecPairs (s0 :: rest)).map
        (fun p => (p.1.zip p.2).map (fun q => decide (q.1 = q.2)))) := by
    apply mapM_ok_of
    intro p hp
    have hm := consecPairs_mem hp
    unfold lcsPair
    rw [if_pos (by rw [hlen p.1 hm.1, hlen p.2 hm.2])]
  have hrowlen : ∀ r ∈ (consecPairs (s0 :: rest)).map
      (fun p => (p.1.zip p.2).map (fun q => decide (q.1 = q.2))) ++
      [List.replicate ((s0 :: rest).getLastD []).length true],
      r.length = s0.length := by
    intro r hr
    rcases List.mem_append.mp hr with hr | hr
    · obtain ⟨p, hp, hpr⟩ := List.mem_map.mp hr
      have hm := consecPairs_mem hp
      subst hpr
      rw [List.length_map, List.length_zip, hlen p.1 hm.1, hlen p.2 hm.2]
      simp
    · rw [List.mem_singleton.mp hr, List.length_replicate]
      exact hlen _ (getLastD_cons_mem s0 rest [])
  have hstep : longestCommonSubstring (s0 :: rest) =
      (if ((consecPairs (s0 :: rest)).map
            (fun p => (p.1.zip p.2).map (fun q => decide (q.1 = q.2))) ++
            [List.replicate ((s0 :: rest).getLastD []).length true]).all
          (fun r => decide (r.length = s0.length)) = true then
        Except.ok ((s0.zip (colAll s0.length
            ((consecPairs (s0 :: rest)).map
              (fun p => (p.1.zip p.2).map (fun q => decide (q.1 = q.2))) ++
              [List.replicate ((s0 :: rest).getLastD []).length true]))).filterMap
          (fun p => if p.2 = true then some p.1 else none))
      else Except.error PyErr.valueError) := by
    simp only [longestCommonSubstring]
    rw [hmapM]
  rw [hstep]
  rw [if_pos (by
    rw [List.all_eq_true]
    intro r hr
    simpa using hrowlen r hr)]
  congr 1
  rw [zip_filterMap_mask s0 _ (by
    unfold colAll; simp)]
  unfold lcsSpec
  apply List.filterMap_congr
  intro k hk
  have hkL : k < s0.length := List.mem_range.mp hk
  have hmask : (colAll s0.length
      ((consecPairs (s0 :: rest)).map
        (fun p => (p.1.zip p.2).map (fun q => decide (q.1 = q.2))) ++
        [List.replicate ((s0 :: rest).getLastD []).length true])).getD k true =
      decide (∀ t ∈ s0 :: rest, t.getD k default = s0.getD k default) := by
    unfold colAll
    rw [List.getD_eq_getElem?_getD, List.getElem?_map, List.getElem?_range hkL]
    simp only [Option.map_some', Option.getD_some]
    rw [List.all_append]
    have hlast : (List.replicate ((s0 :: rest).getLastD []).length true).getD k true
        = true := getD_replicate_true _ _
    rw [show ([List.replicate ((s0 :: rest).getLastD []).length true].all
        (fun r => r.getD k true)) = true by simp [hlast]]
    rw [Bool.and_true]
    rw [Bool.eq_iff_iff]
    rw [List.all_eq_true, decide_eq_true_eq]
    constructor
    · intro h
      apply (consec_chain k s0 rest).mp
      intro p hp
      have hr := h _ (List.mem_map_of_mem
        (fun p => (p.1.zip p.2).map (fun q => decide (q.1 = q.2))) hp)
      have hm := consecPairs_mem hp
      have h1 : k < p.1.length := by rw [hlen p.1 hm.1]; exact hkL
      have h2 : k < p.2.length := by rw [hlen p.2 hm.2]; exact hkL
      have hz : k < ((p.1.zip p.2).map (fun q => decide (q.1 = q.2))).length := by
        rw [List.length_map, List.length_zip]; exact lt_min h1 h2
      rw [List.getD_eq_getElem?_getD, List.getElem?_eq_getElem hz] at hr
      simp only [Option.getD_some, List.getElem_map, List.getElem_zip,
        decide_eq_true_eq] at hr
      rwa [List.getD_eq_getElem?_getD, List.getElem?_eq_getElem h1,
        List.getD_eq_getElem?_getD, List.getElem?_eq_getElem h2]
    · intro h r hr
      obtain ⟨p, hp, hpr⟩ := List.mem_map.mp hr
      subst hpr
      have hagree := (consec_chain k s0 rest).mpr h p hp
      have hm := consecPairs_mem hp
      have h1 : k < p.1.length := by rw [hlen p.1 hm.1]; exact hkL
      have h2 : k < p.2.length := by rw [hlen p.2 hm.2]; exact hkL
      have hz : k < ((p.1.zip p.2).map (fun q => decide (q.1 = q.2))).length := by
        rw [List.length_map, List.length_zip]; exact lt_min h1 h2
      rw [List.getD_eq_getElem?_getD, List.getElem?_eq_getElem hz]
      simp only [Option.getD_some, List.getElem_map, List.getElem_zip,
        decide_eq_true_eq]
      rw [List.getD_eq_getElem?_getD, List.getElem?_eq_getElem h1,
        List.getD_eq_getElem?_getD, List.getElem?_eq_getElem h2] at hagree
      exact hagree
  rw [hmask]
  by_cases hall : ∀ t ∈ s0 :: rest, t.getD k default = s0.getD k default <;>
    simp [hall, List.all_eq_true, decide_eq_true_eq]

/-- C10: on every non-empty family of equal-length token tuples, the
longest-common-subsequence helper returns exactly the tokens of the first
tuple at the positions where all tuples carry equal tokens (consecutive
pairwise agreement chained over the family), in their original order; it
never matches tokens across different positions. -/
theorem c10_lcs_positionwise (s0 : List Token) (rest : List (List Token))
    (hlen : ∀ t ∈ s0 :: rest, t.length = s0.length) :
    longestCommonSubstring (s0 :: rest) = .ok (lcsSpec (s0 :: rest)) :=
  lcs_eq_spec s0 rest hlen

/-- C10 witness: on the tuples `(a,b,c)`, `(a,x,c)`, `(a,y,c)` the helper
keeps exactly positions 0 and 2 of the first tuple. -/
theorem c10_lcs_positionwise_witness :
    longestCommonSubstring
      [[Token.str "a", .str "b", .str "c"],
       [Token.str "a", .str "x", .str "c"],
       [Token.str "a", .str "y", .str "c"]] =
      .ok [Token.str "a", .str "c"] := by
  have h := c10_lcs_positionwise [Token.str "a", .str "b", .str "c"]
    [[Token.str "a", .str "x", .str "c"], [Token.str "a", .str "y", .str "c"]]
    (by decide)
  rw [h]
  decide

/-! ## Indexing lemmas (towards C2 and C6) -/

theorem map_range_getD {α : Type} (l : List α) (d : α) :
    (List.range l.length).map (fun t => l.getD t d) = l := by
  induction l with
  | nil => simp
  | cons x xs ih =>
    rw [List.length_cons, List.range_succ_eq_map, List.map_cons, List.map_map]
    rw [show ((fun t => (x :: xs).getD t d) ∘ Nat.succ) =
      (fun t => xs.getD t d) by funext t; simp]
    rw [ih]
    rfl

theorem map_range_getD_comp {α β : Type} (l : List α) (d : α) (f : α → β) :
    (List.range l.length).map (fun t => f (l.getD t d)) = l.map f := by
  have h1 : (List.range l.length).map (fun t => f (l.getD t d)) =
      ((List.range l.length).map (fun t => l.getD t d)).map f := by
    rw [List.map_map]
    rfl
  rw [h1, map_range_getD]

theorem range_flatMap_blocks (n B : Nat) :
    (List.range n).flatMap (fun i => (List.range B).map (fun m => i * B + m)) =
      List.range (n * B) := by
  induction n with
  | zero => simp
  | succ k ih =>
    rw [List.range_succ, List.flatMap_append, ih]
    simp only [List.flatMap_cons, List.flatMap_nil, List.append_nil]
    rw [Nat.succ_mul, List.range_add]

theorem allIdx_map_flat (sh : List Nat) :
    (allIdx sh).map (flatIdxC sh) = List.range sh.prod := by
  induction sh with
  | nil => rfl
  | cons n rest ih =>
    show ((List.range n).flatMap
        (fun i => (cartProd (rest.map List.range)).map (fun t => i :: t))).map
        (flatIdxC (n :: rest)) = List.range ((n :: rest).prod)
    rw [List.map_flatMap]
    have hinner : ∀ i, ((cartProd (rest.map List.range)).map
        (fun t => i :: t)).map (flatIdxC (n :: rest)) =
        (List.range rest.prod).map (fun m => i * rest.prod + m) := by
      intro i
      rw [List.map_map]
      have : (flatIdxC (n :: rest)) ∘ (fun t => i :: t) =
          (fun m => i * rest.prod + m) ∘ (flatIdxC rest) := by
        funext t
        show flatIdxC (n :: rest) (i :: t) = i * rest.prod + flatIdxC rest t
        rfl
      rw [this, ← List.map_map]
      rw [show (cartProd (rest.map List.range)).map (flatIdxC rest) =
        List.range rest.prod from ih]
    simp only [hinner]
    rw [range_flatMap_blocks n rest.prod, List.prod_cons]

theorem range_map_getD_block {α : Type} (l : List α) (d : α) (off n : Nat)
    (hbound : off + n ≤ l.length) :
    (List.range n).map (fun m => l.getD (off + m) d) =
      (l.drop off).take n := by
  induction n with
  | zero => simp
  | succ k ih =>
    rw [List.range_succ, List.map_append, ih (by omega), List.take_succ]
    simp only [List.map_cons, List.map_nil]
    congr 1
    rw [List.getElem?_drop]
    have hk : off + k < l.length := by omega
    rw [List.getElem?_eq_getElem hk]
    rw [List.getD_eq_getElem?_getD, List.getElem?_eq_getElem hk]
    rfl

theorem allIdx_block_read {α : Type} (sh : List Nat) (l : List α) (d : α)
    (off : Nat) (hbound : off + sh.prod ≤ l.length) :
    (allIdx sh).map (fun idx => l.getD (off + flatIdxC sh idx) d) =
      (l.drop off).take sh.prod := by
  have h1 : (allIdx sh).map (fun idx => l.getD (off + flatIdxC sh idx) d) =
      ((allIdx sh).map (flatIdxC sh)).map (fun m => l.getD (off + m) d) := by
    rw [List.map_map]
    rfl
  rw [h1, allIdx_map_flat, range_map_getD_block l d off sh.prod hbound]

theorem drop_take_cons {α : Type} (l : List α) (d : α) (j m : Nat)
    (hj : j < l.length) :
    (l.drop j).take (m + 1) = l.getD j d :: (l.drop (j + 1)).take m := by
  rw [List.drop_eq_getElem_cons hj, List.take_succ_cons,
    List.getD_eq_getElem?_getD, List.getElem?_eq_getElem hj]
  rfl

/-- `find` returns an in-range position. -/
theorem find_ok_lt {toks : List Token} {v : Token} {i : Nat}
    (h : Labels.find toks v = .ok i) : i < toks.length := by
  induction toks generalizing i with
  | nil => unfold Labels.find at h; simp [List.findIdx?_nil] at h
  | cons t rest ih =>
    rw [find_cons] at h
    by_cases ht : t = v
    · rw [if_pos ht] at h
      cases h
      simp
    · rw [if_neg ht] at h
      cases hr : Labels.find rest v with
      | error e => rw [hr] at h; simp at h
      | ok i2 =>
        rw [hr] at h
        simp only [Except.ok.injEq] at h
        subst h
        have := ih hr
        simp only [List.length_cons]
        omega

theorem parseKey_str_ok {la : LabeledArray} {dim : Nat} {s : String} {p : Nat}
    (hfind : Labels.find (la.labels.getD dim []) (.str s) = .ok p) :
    parseKey la dim (.str s) = .ok (.scalar p) := by
  show Except.bind (Labels.find (la.labels.getD dim []) (.str s))
    (fun x => pure (PKey.scalar x)) = .ok (.scalar p)
  rw [hfind]
  rfl

theorem parseKey_str_err {la : LabeledArray} {dim : Nat} {s : String}
    {e : PyErr} (hfind : Labels.find (la.labels.getD dim []) (.str s) = .error e) :
    parseKey la dim (.str s) = .error e := by
  show Except.bind (Labels.find (la.labels.getD dim []) (.str s))
    (fun x => pure (PKey.scalar x)) = .error e
  rw [hfind]
  rfl

/-- Parsing a single leading string key resolves it through `find` and fills
the remaining axes with their full ranges. -/
theorem parseIndex_single_str (la : LabeledArray) (s : String) (p : Nat)
    (hrank : la.shape ≠ [])
    (hfind : Labels.find (la.labels.getD 0 []) (.str s) = .ok p) :
    parseIndex la [.str s] =
      .ok (.scalar p :: ((List.range la.shape.length).drop 1).map
        (fun d => .range (List.range (la.shape.getD d 0)))) := by
  unfold parseIndex parseIndexGo
  rw [if_neg (show ¬ la.shape.length ≤ 0 by
    intro h
    exact hrank (List.length_eq_zero.mp (by omega)))]
  rw [parseKey_str_ok hfind]
  rfl

/-- Parsing a single leading string key surfaces the `find` error. -/
theorem parseIndex_single_str_err (la : LabeledArray) (s : String) (e : PyErr)
    (hrank : la.shape ≠ [])
    (hfind : Labels.find (la.labels.getD 0 []) (.str s) = .error e) :
    parseIndex la [.str s] = .error e := by
  unfold parseIndex parseIndexGo
  rw [if_neg (show ¬ la.shape.length ≤ 0 by
    intro h
    exact hrank (List.length_eq_zero.mp (by omega)))]
  rw [parseKey_str_err hfind]
  rfl

theorem range_drop_one_map {α : Type} (m : Nat) (f : Nat → α) :
    ((List.range (m + 1)).drop 1).map f =
      (List.range m).map (fun k => f (k + 1)) := by
  rw [List.range_succ_eq_map]
  simp only [List.drop_succ_cons, List.drop_zero, List.map_map]
  apply List.map_congr_left
  intro a _
  rfl

/-- `newLabelsGo` over full-range keys reproduces the addressed label
lists. -/
theorem newLabelsGo_ranges (labels : List (List Token)) :
    ∀ (sr : List Nat) (j : Nat), j + sr.length ≤ labels.length →
      (∀ k, k < sr.length → (labels.getD (j + k) []).length = sr.getD k 0) →
      newLabelsGo labels j ((List.range sr.length).map
        (fun k => PKey.range (List.range (sr.getD k 0)))) =
        .ok ((labels.drop j).take sr.length)
  | [], j, _, _ => by simp [newLabelsGo]
  | m :: rest, j, hlen, hk => by
    have hsplit : (List.range (m :: rest).length).map
        (fun k => PKey.range (List.range ((m :: rest).getD k 0))) =
        PKey.range (List.range m) ::
          (List.range rest.length).map
            (fun k => PKey.range (List.range (rest.getD k 0))) := by
      rw [List.length_cons, List.range_succ_eq_map, List.map_cons, List.map_map]
      rfl
    rw [hsplit]
    show (match labelSel (labels.getD j []) (List.range m),
        newLabelsGo labels (j + 1) ((List.range rest.length).map
          (fun k => PKey.range (List.range (rest.getD k 0)))) with
      | .ok sel, .ok xs => Except.ok (sel :: xs)
      | .error e, _ => Except.error e
      | .ok _, .error e => Except.error e) = _
    have hj : (labels.getD j []).length = m := by
      have := hk 0 (by simp)
      simpa using this
    have hsel : labelSel (labels.getD j []) (List.range m) =
        .ok (labels.getD j []) := by
      unfold labelSel
      rw [if_pos (by
        rw [List.all_eq_true]
        intro t ht
        simp only [decide_eq_true_eq]
        rw [hj]
        exact List.mem_range.mp ht)]
      rw [← hj, map_range_getD]
    rw [hsel, newLabelsGo_ranges labels rest (j + 1)
      (by simp only [List.length_cons] at hlen; omega)
      (fun k hks => by
        have := hk (k + 1) (by simp only [List.length_cons]; omega)
        simpa [Nat.add_assoc, Nat.add_comm 1 k] using this)]
    have hjlt : j < labels.length := by
      simp only [List.length_cons] at hlen; omega
    simp only [List.length_cons]
    rw [drop_take_cons labels [] j rest.length hjlt]

/-- `dimLists` passes full-range keys through unchecked. -/
theorem dimLists_ranges (shape : List Nat) :
    ∀ (ls : List (List Nat)) (j : Nat),
      dimLists shape j (ls.map PKey.range) = .ok (ls.map (fun l => (true, l)))
  | [], _ => by simp [dimLists]
  | l :: rest, j => by
    rw [List.map_cons]
    show (match dimLists shape (j + 1) (rest.map PKey.range) with
      | .ok xs => Except.ok ((true, l) :: xs)
      | .error e => Except.error e) = _
    rw [dimLists_ranges shape rest (j + 1)]
    rfl

theorem map_len_getD {lr : List (List Token)} {sr : List Nat}
    (h : lr.map List.length = sr) (k : Nat) (hk : k < sr.length) :
    (lr.getD k []).length = sr.getD k 0 := by
  subst h
  rw [List.length_map] at hk
  rw [List.getD_eq_getElem?_getD, List.getD_eq_getElem?_getD, List.getElem?_map,
    List.getElem?_eq_getElem hk]
  rfl

theorem getitem_parsed (la : LabeledArray) (keys : List Key) (pks : List PKey)
    (hp : parseIndex la keys = .ok pks) :
    la.getitem keys =
      (if 2 ≤ (pks.filter PKey.isFancy).length then .error .notImplementedError
       else match newLabelsGo la.labels 0 pks, dimLists la.shape 0 pks with
        | .error e, _ => .error e
        | .ok _, .error e => .error e
        | .ok newLabels, .ok dl =>
          if outShapeOf dl = [] then
            .ok (.scalar ((outDataOf la dl).getD 0 nanv))
          else if (outShapeOf dl).length = newLabels.length then
            .ok (.arr ⟨outShapeOf dl, outDataOf la dl, newLabels⟩)
          else .error .assertionError) := by
  unfold LabeledArray.getitem
  rw [hp]

theorem filter_isFancy_scalar_ranges (p : Nat) (ls : List (List Nat)) :
    (PKey.scalar p :: ls.map PKey.range).filter PKey.isFancy = [] := by
  rw [List.filter_eq_nil_iff]
  intro a ha
  rcases List.mem_cons.mp ha with ha | ha
  · subst ha; simp [PKey.isFancy]
  · obtain ⟨l, _, hl⟩ := List.mem_map.mp ha
    subst hl; simp [PKey.isFancy]

theorem outShapeOf_ranges (sr : List Nat) :
    outShapeOf ((sr.map List.range).map (fun l => ((true, l) : Bool × List Nat))) = sr := by
  induction sr with
  | nil => rfl
  | cons m rest ih =>
    simp only [List.map_cons, outShapeOf, List.filter_cons] at ih ⊢
    rw [if_pos trivial, List.map_cons, ih]
    simp

theorem cartProd_singleton_cons {α : Type} (x : α) (ls : List (List α)) :
    cartProd ([x] :: ls) = (cartProd ls).map (fun t => x :: t) := by
  show [x].flatMap (fun a => (cartProd ls).map (fun t => a :: t)) = _
  simp

/-! ## C2: a single string label key collapses its axis -/

/-- C2: indexing a well-formed rank-`≥ 2` labeled array with one string
label key resolves the key through the leading axis's `find` (position `p`),
collapses that axis — the result has one fewer axis (shape `sr`, the row
block `p` of the buffer) — and carries the remaining axes' Label Sets `lr`
unchanged. -/
theorem c2_string_key_collapses_axis (n0 : Nat) (sr : List Nat)
    (l0 : List Token) (lr : List (List Token)) (data : List NFloat)
    (s : String) (p : Nat)
    (hwf : (LabeledArray.mk (n0 :: sr) data (l0 :: lr)).wf)
    (hrank : sr ≠ [])
    (hfind : Labels.find l0 (.str s) = .ok p) :
    LabeledArray.getitem ⟨n0 :: sr, data, l0 :: lr⟩ [.str s] =
      .ok (.arr ⟨sr, (data.drop (p * sr.prod)).take sr.prod, lr⟩) := by
  obtain ⟨hdata, hlab⟩ := hwf
  simp only [List.map_cons, List.cons.injEq] at hlab
  obtain ⟨hl0, hlr⟩ := hlab
  have hsr : sr.length = lr.length := by rw [← hlr, List.length_map]
  have hp0 : p < n0 := hl0 ▸ find_ok_lt hfind
  have hparse := parseIndex_single_str ⟨n0 :: sr, data, l0 :: lr⟩ s p
    (by simp) hfind
  have htail : ((List.range (n0 :: sr).length).drop 1).map
      (fun d => PKey.range (List.range ((n0 :: sr).getD d 0))) =
      (List.range sr.length).map
        (fun k => PKey.range (List.range (sr.getD k 0))) := by
    rw [show (n0 :: sr).length = sr.length + 1 from rfl, range_drop_one_map]
    rfl
  have htail2 : (List.range sr.length).map
      (fun k => PKey.range (List.range (sr.getD k 0))) =
      (sr.map List.range).map PKey.range := by
    rw [map_range_getD_comp sr 0 (fun m => PKey.range (List.range m)),
      List.map_map]
    rfl
  have hparse2 : parseIndex ⟨n0 :: sr, data, l0 :: lr⟩ [Key.str s] =
      .ok (.scalar p :: (List.range sr.length).map
        (fun k => PKey.range (List.range (sr.getD k 0)))) := by
    rw [hparse]
    show Except.ok (PKey.scalar p ::
      ((List.range (n0 :: sr).length).drop 1).map
        (fun d => PKey.range (List.range ((n0 :: sr).getD d 0)))) = _
    rw [htail]
  rw [getitem_parsed _ _ _ hparse2]
  rw [if_neg (by
    rw [htail2, filter_isFancy_scalar_ranges]
    simp)]
  have hNL : newLabelsGo (l0 :: lr) 0
      (PKey.scalar p :: (List.range sr.length).map
        (fun k => PKey.range (List.range (sr.getD k 0)))) = .ok lr := by
    show newLabelsGo (l0 :: lr) 1 ((List.range sr.length).map
      (fun k => PKey.range (List.range (sr.getD k 0)))) = .ok lr
    rw [newLabelsGo_ranges (l0 :: lr) sr 1
      (by simp only [List.length_cons, hsr]; omega)
      (fun k hk => by
        rw [Nat.add_comm 1 k]
        exact map_len_getD hlr k hk)]
    rw [List.drop_succ_cons, List.drop_zero, hsr, List.take_length]
  have hDL : dimLists (n0 :: sr) 0
      (PKey.scalar p :: (List.range sr.length).map
        (fun k => PKey.range (List.range (sr.getD k 0)))) =
      .ok ((false, [p]) :: (sr.map List.range).map
        (fun l => ((true, l) : Bool × List Nat))) := by
    show (if p < (n0 :: sr).getD 0 0 then
        match dimLists (n0 :: sr) 1 ((List.range sr.length).map
          (fun k => PKey.range (List.range (sr.getD k 0)))) with
        | .ok xs => Except.ok ((false, [p]) :: xs)
        | .error e => Except.error e
      else Except.error PyErr.indexError) = _
    rw [if_pos (show p < (n0 :: sr).getD 0 0 from hp0)]
    rw [htail2, dimLists_ranges (n0 :: sr) (sr.map List.range) 1]
  rw [hNL, hDL]
  have hshape : outShapeOf ((false, [p]) :: (sr.map List.range).map
      (fun l => ((true, l) : Bool × List Nat))) = sr := by
    show outShapeOf ((sr.map List.range).map
      (fun l => ((true, l) : Bool × List Nat))) = sr
    exact outShapeOf_ranges sr
  have hdataEq : outDataOf ⟨n0 :: sr, data, l0 :: lr⟩
      ((false, [p]) :: (sr.map List.range).map
        (fun l => ((true, l) : Bool × List Nat))) =
      (data.drop (p * sr.prod)).take sr.prod := by
    unfold outDataOf
    rw [show (((false, [p]) :: (sr.map List.range).map
        (fun l => ((true, l) : Bool × List Nat))).map Prod.snd) =
      [p] :: sr.map List.range by
        rw [List.map_cons, List.map_map]
        simp [Function.comp]]
    rw [cartProd_singleton_cons]
    rw [List.map_map]
    rw [show ((fun idx => data.getD (flatIdxC (n0 :: sr) idx) nanv) ∘
        (fun t => p :: t)) =
      (fun idx => data.getD (p * sr.prod + flatIdxC sr idx) nanv) from rfl]
    rw [show cartProd (sr.map List.range) = allIdx sr from rfl]
    apply allIdx_block_read
    rw [hdata]
    show p * sr.prod + sr.prod ≤ (n0 :: sr).prod
    rw [List.prod_cons]
    calc p * sr.prod + sr.prod = (p + 1) * sr.prod := by rw [Nat.succ_mul]
      _ ≤ n0 * sr.prod := Nat.mul_le_mul_right _ hp0
  simp only [hshape, hdataEq]
  rw [if_neg hrank]
  rw [if_pos (by rw [hsr])]

/-- C2 witness: the spec scenario — `[[1,1],[1,1]]` with labels
`(x,y) × (p,q)` indexed by `"x"` gives the rank-1 array `[1,1]` carrying the
Label Set `(p,q)`. -/
theorem c2_string_key_collapses_axis_witness :
    LabeledArray.getitem
      ⟨[2, 2], [some 1, some 1, some 1, some 1],
       [[.str "x", .str "y"], [.str "p", .str "q"]]⟩ [.str "x"] =
      .ok (.arr ⟨[2], [some 1, some 1], [[.str "p", .str "q"]]⟩) := by
  have h := c2_string_key_collapses_axis 2 [2] [.str "x", .str "y"]
    [[.str "p", .str "q"]] [some 1, some 1, some 1, some 1] "x" 0
    (by decide) (by decide) (by decide)
  exact h

/-! ## C6: indexed assignment and unseen labels

`__setitem__` resolves keys through the same `_parse_index` path as reads,
and `find` raises on an absent label; no code path appends a new label or
grows the axis. -/

theorem setitem_parsed (la : LabeledArray) (keys : List Key) (v : Rat)
    (pks : List PKey) (hp : parseIndex la keys = .ok pks) :
    la.setitem keys v =
      (if 2 ≤ (pks.filter PKey.isFancy).length then .error .notImplementedError
       else match dimLists la.shape 0 pks with
        | .error e => .error e
        | .ok dl =>
          .ok ⟨la.shape, writeAt la.data (writePositions la.shape dl) v,
               la.labels⟩) := by
  unfold LabeledArray.setitem
  rw [hp]

/-- C6 (amended): indexed assignment through a string key resolves the key
exactly as a read does — an absent label surfaces the lookup path's error
(no label is appended, no array is produced), and a present label at
position `p` writes the value across exactly the row block `p` of the
buffer while leaving the Label Sets unchanged. -/
theorem c6_assignment_no_label_growth (n0 : Nat) (sr : List Nat)
    (l0 : List Token) (lr : List (List Token)) (data : List NFloat)
    (s : String) (v : Rat)
    (hwf : (LabeledArray.mk (n0 :: sr) data (l0 :: lr)).wf) :
    (∀ e, Labels.find l0 (.str s) = .error e →
      LabeledArray.setitem ⟨n0 :: sr, data, l0 :: lr⟩ [.str s] v = .error e) ∧
    (∀ p, Labels.find l0 (.str s) = .ok p →
      LabeledArray.setitem ⟨n0 :: sr, data, l0 :: lr⟩ [.str s] v =
        .ok ⟨n0 :: sr,
             writeAt data ((List.range sr.prod).map (fun m => p * sr.prod + m)) v,
             l0 :: lr⟩) := by
  obtain ⟨hdata, hlab⟩ := hwf
  simp only [List.map_cons, List.cons.injEq] at hlab
  obtain ⟨hl0, hlr⟩ := hlab
  constructor
  · intro e hfind
    unfold LabeledArray.setitem
    rw [parseIndex_single_str_err ⟨n0 :: sr, data, l0 :: lr⟩ s e (by simp) hfind]
  · intro p hfind
    have hp0 : p < n0 := hl0 ▸ find_ok_lt hfind
    have hparse := parseIndex_single_str ⟨n0 :: sr, data, l0 :: lr⟩ s p
      (by simp) hfind
    have htail : ((List.range (n0 :: sr).length).drop 1).map
        (fun d => PKey.range (List.range ((n0 :: sr).getD d 0))) =
        (List.range sr.length).map
          (fun k => PKey.range (List.range (sr.getD k 0))) := by
      rw [show (n0 :: sr).length = sr.length + 1 from rfl, range_drop_one_map]
      rfl
    have htail2 : (List.range sr.length).map
        (fun k => PKey.range (List.range (sr.getD k 0))) =
        (sr.map List.range).map PKey.range := by
      rw [map_range_getD_comp sr 0 (fun m => PKey.range (List.range m)),
        List.map_map]
      rfl
    have hparse2 : parseIndex ⟨n0 :: sr, data, l0 :: lr⟩ [Key.str s] =
        .ok (.scalar p :: (List.range sr.length).map
          (fun k => PKey.range (List.range (sr.getD k 0)))) := by
      rw [hparse]
      show Except.ok (PKey.scalar p ::
        ((List.range (n0 :: sr).length).drop 1).map
          (fun d => PKey.range (List.range ((n0 :: sr).getD d 0)))) = _
      rw [htail]
    rw [setitem_parsed _ _ _ _ hparse2]
    rw [if_neg (by
      rw [htail2, filter_isFancy_scalar_ranges]
      simp)]
    have hDL : dimLists (n0 :: sr) 0
        (PKey.scalar p :: (List.range sr.length).map
          (fun k => PKey.range (List.range (sr.getD k 0)))) =
        .ok ((false, [p]) :: (sr.map List.range).map
          (fun l => ((true, l) : Bool × List Nat))) := by
      show (if p < (n0 :: sr).getD 0 0 then
          match dimLists (n0 :: sr) 1 ((List.range sr.length).map
            (fun k => PKey.range (List.range (sr.getD k 0)))) with
          | .ok xs => Except.ok ((false, [p]) :: xs)
          | .error e => Except.error e
        else Except.error PyErr.indexError) = _
      rw [if_pos (show p < (n0 :: sr).getD 0 0 from hp0)]
      rw [htail2, dimLists_ranges (n0 :: sr) (sr.map List.range) 1]
    rw [hDL]
    have hpos : writePositions (n0 :: sr)
        ((false, [p]) :: (sr.map List.range).map
          (fun l => ((true, l) : Bool × List Nat))) =
        (List.range sr.prod).map (fun m => p * sr.prod + m) := by
      unfold writePositions
      rw [show (((false, [p]) :: (sr.map List.range).map
          (fun l => ((true, l) : Bool × List Nat))).map Prod.snd) =
        [p] :: sr.map List.range by
          rw [List.map_cons, List.map_map]
          simp [Function.comp]]
      rw [cartProd_singleton_cons, List.map_map]
      rw [show ((flatIdxC (n0 :: sr)) ∘ (fun t => p :: t)) =
        (fun idx => p * sr.prod + flatIdxC sr idx) from rfl]
      have h1 : (cartProd (sr.map List.range)).map
          (fun idx => p * sr.prod + flatIdxC sr idx) =
          ((allIdx sr).map (flatIdxC sr)).map (fun m => p * sr.prod + m) := by
        rw [List.map_map]
        rfl
      rw [h1, allIdx_map_flat]
    simp only [hpos]

/-- C6 counterexample: assigning through the unseen label `"z"` on the
`(x,y) × (p,q)` array raises the lookup-path error instead of appending
`"z"` and growing the axis — the claimed grow-on-write behaviour does not
happen. -/
theorem c6_grow_on_write_counterexample :
    LabeledArray.setitem
      ⟨[2, 2], [some 1, some 2, some 3, some 4],
       [[.str "x", .str "y"], [.str "p", .str "q"]]⟩ [.str "z"] 5 =
      .error (.nameError "arr") := by decide

/-- C6 witness: on the `(x,y) × (p,q)` array, assigning through `"y"`
(position 1) writes the second row block and keeps the labels unchanged. -/
theorem c6_assignment_no_label_growth_witness :
    LabeledArray.setitem
      ⟨[2, 2], [some 1, some 2, some 3, some 4],
       [[.str "x", .str "y"], [.str "p", .str "q"]]⟩ [.str "y"] 9 =
      .ok ⟨[2, 2], [some 1, some 2, some 9, some 9],
           [[.str "x", .str "y"], [.str "p", .str "q"]]⟩ := by
  have h := (c6_assignment_no_label_growth 2 [2] [.str "x", .str "y"]
    [[.str "p", .str "q"]] [some 1, some 2, some 3, some 4] "y" 9
    (by decide)).2 1 (by decide)
  rw [h]
  decide

/-! ## C3: NaN-padding concatenation -/

theorem cons_of_length_succ {α : Type} {l : List α} {n : Nat}
    (h : l.length = n + 1) : ∃ a t, l = a :: t ∧ t.length = n := by
  cases l with
  | nil => simp at h
  | cons a t => exact ⟨a, t, rfl, by simpa using h⟩

theorem nan_concat_axis_sum (arrays : List NDArray) (axis : Nat) (r : NDArray)
    (h : nan_concatinate arrays axis = .ok r) :
    r.shape.getD axis 0 = (arrays.map (fun a => a.shape.getD axis 0)).sum := by
  cases arrays with
  | nil => unfold nan_concatinate at h; cases h
  | cons a0 rest =>
    rw [show nan_concatinate (a0 :: rest) axis =
      (if ((a0 :: rest).all (fun a => a.ndim = a0.ndim)) ∧ axis < a0.ndim then
        Except.ok ⟨concatOutShape (a0 :: rest) axis a0.ndim,
          (allIdx (concatOutShape (a0 :: rest) axis a0.ndim)).map (fun idx =>
            match pickInput (a0 :: rest) axis (idx.getD axis 0) with
            | some p => p.1.readPad (idx.set axis p.2)
            | none => nanv)⟩
      else Except.error PyErr.valueError) from rfl] at h
    by_cases hc : ((a0 :: rest).all (fun a => a.ndim = a0.ndim)) = true ∧
        axis < a0.ndim
    · rw [if_pos hc] at h
      simp only [Except.ok.injEq] at h
      subst h
      show (concatOutShape (a0 :: rest) axis a0.ndim).getD axis 0 = _
      unfold concatOutShape
      rw [List.getD_eq_getElem?_getD, List.getElem?_map,
        List.getElem?_range hc.2]
      simp
    · rw [if_neg hc] at h
      cases h

/-- C3: concatenating `(2,2)` and `(2,3)` shaped arrays along axis 0 yields
shape `(4,3)` with the two cells `[0,2]` and `[1,2]` (flat positions 2 and 5)
padded with the NaN sentinel; the extent of the concatenation axis is always
the sum of the per-input extents; and concatenating a `(1,2)` array with a
`(0,)`-shaped empty array returns the non-empty operand unchanged because
empty-sized inputs are dropped before processing. -/
theorem c3_concatenate_padding (d1 d2 d3 : List NFloat)
    (h1 : d1.length = 4) (h2 : d2.length = 6) (h3 : d3.length = 2) :
    (∃ r, concatenate_arrays [⟨[2, 2], d1⟩, ⟨[2, 3], d2⟩] (some 0) = .ok r ∧
      r.shape = [4, 3] ∧
      r.read [0, 2] = .ok nanv ∧ r.read [1, 2] = .ok nanv ∧
      r.data = [d1.getD 0 nanv, d1.getD 1 nanv, nanv,
                d1.getD 2 nanv, d1.getD 3 nanv, nanv] ++ d2) ∧
    (∀ arrays axis r, nan_concatinate arrays axis = .ok r →
      r.shape.getD axis 0 = (arrays.map (fun a => a.shape.getD axis 0)).sum) ∧
    (concatenate_arrays [⟨[1, 2], d3⟩, ⟨[0], []⟩] (some 0) = .ok ⟨[1, 2], d3⟩) := by
  refine ⟨?_, nan_concat_axis_sum, ?_⟩
  · obtain ⟨a1, t1, rfl, hA⟩ := cons_of_length_succ h1
    obtain ⟨a2, t2, rfl, hB⟩ := cons_of_length_succ hA
    obtain ⟨a3, t3, rfl, hC⟩ := cons_of_length_succ hB
    obtain ⟨a4, t4, rfl, hD⟩ := cons_of_length_succ hC
    obtain rfl := List.length_eq_zero.mp hD
    obtain ⟨b1, u1, rfl, hE⟩ := cons_of_length_succ h2
    obtain ⟨b2, u2, rfl, hF⟩ := cons_of_length_succ hE
    obtain ⟨b3, u3, rfl, hG⟩ := cons_of_length_succ hF
    obtain ⟨b4, u4, rfl, hH⟩ := cons_of_length_succ hG
    obtain ⟨b5, u5, rfl, hI⟩ := cons_of_length_succ hH
    obtain ⟨b6, u6, rfl, hJ⟩ := cons_of_length_succ hI
    obtain rfl := List.length_eq_zero.mp hJ
    exact ⟨_, rfl, rfl, rfl, rfl, rfl⟩
  · obtain ⟨c1, w1, rfl, hK⟩ := cons_of_length_succ h3
    obtain ⟨c2, w2, rfl, hL⟩ := cons_of_length_succ hK
    obtain rfl := List.length_eq_zero.mp hL
    rfl

/-- C3 witness: the concrete instance with buffers `1..4`, `5..10` and
`(1,2)`. -/
theorem c3_concatenate_padding_witness :
    (∃ r, concatenate_arrays
        [⟨[2, 2], [some 1, some 2, some 3, some 4]⟩,
         ⟨[2, 3], [some 5, some 6, some 7, some 8, some 9, some 10]⟩]
        (some 0) = .ok r ∧
      r.shape = [4, 3] ∧ r.read [0, 2] = .ok nanv ∧ r.read [1, 2] = .ok nanv ∧
      r.data = [some 1, some 2, nanv, some 3, some 4, nanv] ++
        [some 5, some 6, some 7, some 8, some 9, some 10]) ∧
    (concatenate_arrays [⟨[1, 2], [some 1, some 2]⟩, ⟨[0], []⟩] (some 0) =
      .ok ⟨[1, 2], [some 1, some 2]⟩) := by
  have h := c3_concatenate_padding
    [some 1, some 2, some 3, some 4]
    [some 5, some 6, some 7, some 8, some 9, some 10]
    [some 1, some 2] (by decide) (by decide) (by decide)
  exact ⟨h.1, h.2.2⟩

/-! ## C4: combine and the failed decompose round trip -/

/-- C4 counterexample: decomposing the combined Label Set
`(a-c, a-d, a-e, b-c, b-d, b-e)` against shape `(2,3)` does not recover
`(a,b)` and `(c,d,e)` — `decompose` reshapes each axis-0 slice (length 3)
into rows of width `ndim = 2`, which raises a `ValueError`. -/
theorem c4_decompose_counterexample :
    (Labels.decompose2 [[.str "a-c", .str "a-d", .str "a-e"],
        [.str "b-c", .str "b-d", .str "b-e"]] "-" = .error .valueError) ∧
    (Labels.decompose2 [[.str "a-c", .str "a-d", .str "a-e"],
        [.str "b-c", .str "b-d", .str "b-e"]] "-" ≠
      .ok [[.str "a", .str "b"], [.str "c", .str "d", .str "e"]]) := by
  constructor
  · decide
  · decide

/-- C4 (amended): for a `(2,3)` labeled array with axes `(a,b) × (c,d,e)`,
`combine((0,1))` yields the shape-`(6,)` array over the same buffer whose
single Label Set is the row-major delimiter-joined cross product
`(a-c, a-d, a-e, b-c, b-d, b-e)`; reshaping that combined Label Set back to
`(2,3)` reproduces the product grid, but decomposing the grid raises a
`ValueError` (each length-3 axis-0 slice cannot be reshaped into rows of
width `ndim = 2`), so the original Label Sets are not recovered. -/
theorem c4_combine_cross_product (data : List NFloat) (h : data.length = 6) :
    (LabeledArray.combine ⟨[2, 3], data,
        [[.str "a", .str "b"], [.str "c", .str "d", .str "e"]]⟩ (0, 1) =
      .ok ⟨[6], data,
        [[.str "a-c", .str "a-d", .str "a-e",
          .str "b-c", .str "b-d", .str "b-e"]]⟩) ∧
    (labelsReshape2 [.str "a-c", .str "a-d", .str "a-e",
        .str "b-c", .str "b-d", .str "b-e"] 2 3 =
      .ok [[.str "a-c", .str "a-d", .str "a-e"],
           [.str "b-c", .str "b-d", .str "b-e"]]) ∧
    (Labels.decompose2 [[.str "a-c", .str "a-d", .str "a-e"],
        [.str "b-c", .str "b-d", .str "b-e"]] "-" = .error .valueError) := by
  refine ⟨?_, by decide, by decide⟩
  obtain ⟨a1, t1, rfl, hA⟩ := cons_of_length_succ h
  obtain ⟨a2, t2, rfl, hB⟩ := cons_of_length_succ hA
  obtain ⟨a3, t3, rfl, hC⟩ := cons_of_length_succ hB
  obtain ⟨a4, t4, rfl, hD⟩ := cons_of_length_succ hC
  obtain ⟨a5, t5, rfl, hE⟩ := cons_of_length_succ hD
  obtain ⟨a6, t6, rfl, hF⟩ := cons_of_length_succ hE
  obtain rfl := List.length_eq_zero.mp hF
  rfl

/-- C4 witness: the combine half at the concrete buffer `1..6`. -/
theorem c4_combine_cross_product_witness :
    LabeledArray.combine ⟨[2, 3],
        [some 1, some 2, some 3, some 4, some 5, some 6],
        [[.str "a", .str "b"], [.str "c", .str "d", .str "e"]]⟩ (0, 1) =
      .ok ⟨[6], [some 1, some 2, some 3, some 4, some 5, some 6],
        [[.str "a-c", .str "a-d", .str "a-e",
          .str "b-c", .str "b-d", .str "b-e"]]⟩ :=
  (c4_combine_cross_product
    [some 1, some 2, some 3, some 4, some 5, some 6] (by decide)).1

/-! ## C5: the nested-mapping scenario -/

/-- C5: `from_mapping({"a":{"b":1,"c":2},"d":{"b":3}})` yields shape
`(2,2)`, level-wise first-seen-union Label Sets `(("a","d"),("b","c"))`, and
the buffer `[[1,2],[3,nan]]` with the missing leaf padded by the
sentinel. -/
theorem c5_from_mapping_scenario :
    LabeledArray.from_dict
      (.dict (.cons (.str "a")
        (.dict (.cons (.str "b") (.scalar 1) (.cons (.str "c") (.scalar 2) .nil)))
        (.cons (.str "d") (.dict (.cons (.str "b") (.scalar 3) .nil)) .nil))) =
      .ok ⟨[2, 2], [some 1, some 2, some 3, nanv],
           [[.str "a", .str "d"], [.str "b", .str "c"]]⟩ := by decide

/-! ## C8: label factoring on a trivial reshape -/

theorem mapM_getD_eval {α : Type} {f : Nat → Except PyErr α} (vals : List α)
    (d : α) (hval : ∀ j, j < vals.length → f j = .ok (vals.getD j d)) :
    (List.range vals.length).mapM f = .ok vals := by
  rw [mapM_ok_of (fun x hx => hval x (List.mem_range.mp hx))]
  rw [map_range_getD]

theorem axisFactor_eval (slabels : List (List String)) (shape : List Nat)
    (order : Char) (delim : String) (i : Nat) (vals : List String)
    (hdim : shape.getD i 0 = vals.length)
    (hval : ∀ j, j < vals.length →
      factorOne slabels shape order delim i j = .ok (vals.getD j "")) :
    axisFactor slabels shape order delim i = .ok vals := by
  unfold axisFactor
  rw [hdim]
  exact mapM_getD_eval vals "" hval

theorem label_reshape_eval (labels : List (List Token)) (shape : List Nat)
    (order : Char) (delim : String) (vals : List (List Token))
    (hdim : shape.length = vals.length)
    (hval : ∀ i, i < vals.length →
      reshapeOneAxis labels shape order delim i = .ok (vals.getD i [])) :
    label_reshape labels shape order delim = .ok vals := by
  unfold label_reshape
  rw [hdim]
  exact mapM_getD_eval vals [] hval

theorem labelsNewAll_cons_ok {l x : List Token} {rest out : List (List Token)}
    (h1 : Labels.new l = .ok x) (h2 : labelsNewAll rest = .ok out) :
    labelsNewAll (l :: rest) = .ok (x :: out) := by
  unfold labelsNewAll
  rw [h1, h2]

theorem reshapeOrd_identity_C (sh : List Nat) (data : List NFloat)
    (h : data.length = sh.prod) :
    NDArray.reshapeOrd ⟨sh, data⟩ sh 'C' = .ok ⟨sh, data⟩ := by
  unfold NDArray.reshapeOrd
  rw [if_pos rfl]
  rw [show (fun idx =>
      (NDArray.flattenOrd ⟨sh, data⟩ 'C').getD
        (if ('C' : Char) = 'F' then flatIdxF sh idx
         else flatIdxC sh idx) nanv) =
    (fun idx => data.getD (flatIdxC sh idx) nanv) from rfl]
  congr 1
  have h1 : (allIdx sh).map (fun idx => data.getD (flatIdxC sh idx) nanv) =
      ((allIdx sh).map (flatIdxC sh)).map (fun m => data.getD m nanv) := by
    rw [List.map_map]
    rfl
  rw [h1, allIdx_map_flat, show sh.prod = data.length from h.symm]
  exact congrArg (NDArray.mk sh) (map_range_getD data nanv)

set_option maxHeartbeats 2000000 in
/-- C8: reshaping a `(2,3,4)` labeled array (distinct string labels on each
axis, per the Label Set invariant) to the identical shape `(2,3,4)` in
C order returns the identical buffer and per-axis Label Sets: the label
factoring recovers exactly the input labels. -/
theorem c8_trivial_reshape_identity
    (a b c d e f g h i : String) (data : List NFloat)
    (hab : a ≠ b)
    (hcd : c ≠ d) (hce : c ≠ e) (hde : d ≠ e)
    (hfg : f ≠ g) (hfh : f ≠ h) (hfi : f ≠ i)
    (hgh : g ≠ h) (hgi : g ≠ i) (hhi : h ≠ i)
    (hdata : data.length = 24) :
    LabeledArray.reshapeRelabeled
      ⟨[2, 3, 4], data,
       [[.str a, .str b], [.str c, .str d, .str e],
        [.str f, .str g, .str h, .str i]]⟩ [2, 3, 4] 'C' =
      .ok ⟨[2, 3, 4], data,
        [[.str a, .str b], [.str c, .str d, .str e],
         [.str f, .str g, .str h, .str i]]⟩ := by
  have f00 : factorOne [[a, b], [c, d, e], [f, g, h, i]] [2, 3, 4] 'C' "-" 0 0 =
      .ok a := by
    unfold factorOne
    rw [show rowsFor [[a, b], [c, d, e], [f, g, h, i]] [2, 3, 4] 'C' 0 0 =
      [[a, c, f], [a, c, g], [a, c, h], [a, c, i],
       [a, d, f], [a, d, g], [a, d, h], [a, d, i],
       [a, e, f], [a, e, g], [a, e, h], [a, e, i]] from rfl]
    rw [lcs_eq_spec [a, c, f]
      [[a, c, g], [a, c, h], [a, c, i], [a, d, f], [a, d, g], [a, d, h],
       [a, d, i], [a, e, f], [a, e, g], [a, e, h], [a, e, i]]
      (by intro t ht; fin_cases ht <;> rfl)]
    rw [show lcsSpec
      [[a, c, f], [a, c, g], [a, c, h], [a, c, i],
       [a, d, f], [a, d, g], [a, d, h], [a, d, i],
       [a, e, f], [a, e, g], [a, e, h], [a, e, i]] = [a] from by
        simp [lcsSpec, show List.range 3 = [0, 1, 2] from rfl,
          List.filterMap_cons, Ne.symm hcd, Ne.symm hce,
          Ne.symm hfg, Ne.symm hfh, Ne.symm hfi]]
    rfl
  have f01 : factorOne [[a, b], [c, d, e], [f, g, h, i]] [2, 3, 4] 'C' "-" 0 1 =
      .ok b := by
    unfold factorOne
    rw [show rowsFor [[a, b], [c, d, e], [f, g, h, i]] [2, 3, 4] 'C' 0 1 =
      [[b, c, f], [b, c, g], [b, c, h], [b, c, i],
       [b, d, f], [b, d, g], [b, d, h], [b, d, i],
       [b, e, f], [b, e, g], [b, e, h], [b, e, i]] from rfl]
    rw [lcs_eq_spec [b, c, f]
      [[b, c, g], [b, c, h], [b, c, i], [b, d, f], [b, d, g], [b, d, h],
       [b, d, i], [b, e, f], [b, e, g], [b, e, h], [b, e, i]]
      (by intro t ht; fin_cases ht <;> rfl)]
    rw [show lcsSpec
      [[b, c, f], [b, c, g], [b, c, h], [b, c, i],
       [b, d, f], [b, d, g], [b, d, h], [b, d, i],
       [b, e, f], [b, e, g], [b, e, h], [b, e, i]] = [b] from by
        simp [lcsSpec, show List.range 3 = [0, 1, 2] from rfl,
          List.filterMap_cons, Ne.symm hcd, Ne.symm hce,
          Ne.symm hfg, Ne.symm hfh, Ne.symm hfi]]
    rfl
  have f10 : factorOne [[a, b], [c, d, e], [f, g, h, i]] [2, 3, 4] 'C' "-" 1 0 =
      .ok c := by
    unfold factorOne
    rw [show rowsFor [[a, b], [c, d, e], [f, g, h, i]] [2, 3, 4] 'C' 1 0 =
      [[a, c, f], [a, c, g], [a, c, h], [a, c, i],
       [b, c, f], [b, c, g], [b, c, h], [b, c, i]] from rfl]
    rw [lcs_eq_spec [a, c, f]
      [[a, c, g], [a, c, h], [a, c, i], [b, c, f], [b, c, g], [b, c, h],
       [b, c, i]]
      (by intro t ht; fin_cases ht <;> rfl)]
    rw [show lcsSpec
      [[a, c, f], [a, c, g], [a, c, h], [a, c, i],
       [b, c, f], [b, c, g], [b, c, h], [b, c, i]] = [c] from by
        simp [lcsSpec, show List.range 3 = [0, 1, 2] from rfl,
          List.filterMap_cons, Ne.symm hab,
          Ne.symm hfg, Ne.symm hfh, Ne.symm hfi]]
    rfl
  have f11 : factorOne [[a, b], [c, d, e], [f, g, h, i]] [2, 3, 4] 'C' "-" 1 1 =
      .ok d := by
    unfold factorOne
    rw [show rowsFor [[a, b], [c, d, e], [f, g, h, i]] [2, 3, 4] 'C' 1 1 =
      [[a, d, f], [a, d, g], [a, d, h], [a, d, i],
       [b, d, f], [b, d, g], [b, d, h], [b, d, i]] from rfl]
    rw [lcs_eq_spec [a, d, f]
      [[a, d, g], [a, d, h], [a, d, i], [b, d, f], [b, d, g], [b, d, h],
       [b, d, i]]
      (by intro t ht; fin_cases ht <;> rfl)]
    rw [show lcsSpec
      [[a, d, f], [a, d, g], [a, d, h], [a, d, i],
       [b, d, f], [b, d, g], [b, d, h], [b, d, i]] = [d] from by
        simp [lcsSpec, show List.range 3 = [0, 1, 2] from rfl,
          List.filterMap_cons, Ne.symm hab,
          Ne.symm hfg, Ne.symm hfh, Ne.symm hfi]]
    rfl
  have f12 : factorOne [[a, b], [c, d, e], [f, g, h, i]] [2, 3, 4] 'C' "-" 1 2 =
      .ok e := by
    unfold factorOne
    rw [show rowsFor [[a, b], [c, d, e], [f, g, h, i]] [2, 3, 4] 'C' 1 2 =
      [[a, e, f], [a, e, g], [a, e, h], [a, e, i],
       [b, e, f], [b, e, g], [b, e, h], [b, e, i]] from rfl]
    rw [lcs_eq_spec [a, e, f]
      [[a, e, g], [a, e, h], [a, e, i], [b, e, f], [b, e, g], [b, e, h],
       [b, e, i]]
      (by intro t ht; fin_cases ht <;> rfl)]
    rw [show lcsSpec
      [[a, e, f], [a, e, g], [a, e, h], [a, e, i],
       [b, e, f], [b, e, g], [b, e, h], [b, e, i]] = [e] from by
        simp [lcsSpec, show List.range 3 = [0, 1, 2] from rfl,
          List.filterMap_cons, Ne.symm hab,
          Ne.symm hfg, Ne.symm hfh, Ne.symm hfi]]
    rfl
  have f20 : factorOne [[a, b], [c, d, e], [f, g, h, i]] [2, 3, 4] 'C' "-" 2 0 =
      .ok f := by
    unfold factorOne
    rw [show rowsFor [[a, b], [c, d, e], [f, g, h, i]] [2, 3, 4] 'C' 2 0 =
      [[a, c, f], [a, d, f], [a, e, f],
       [b, c, f], [b, d, f], [b, e, f]] from rfl]
    rw [lcs_eq_spec [a, c, f]
      [[a, d, f], [a, e, f], [b, c, f], [b, d, f], [b, e, f]]
      (by intro t ht; fin_cases ht <;> rfl)]
    rw [show lcsSpec
      [[a, c, f], [a, d, f], [a, e, f],
       [b, c, f], [b, d, f], [b, e, f]] = [f] from by
        simp [lcsSpec, show List.range 3 = [0, 1, 2] from rfl,
          List.filterMap_cons, Ne.symm hab, Ne.symm hcd, Ne.symm hce]]
    rfl
  have f21 : factorOne [[a, b], [c, d, e], [f, g, h, i]] [2, 3, 4] 'C' "-" 2 1 =
      .ok g := by
    unfold factorOne
    rw [show rowsFor [[a, b], [c, d, e], [f, g, h, i]] [2, 3, 4] 'C' 2 1 =
      [[a, c, g], [a, d, g], [a, e, g],
       [b, c, g], [b, d, g], [b, e, g]] from rfl]
    rw [lcs_eq_spec [a, c, g]
      [[a, d, g], [a, e, g], [b, c, g], [b, d, g], [b, e, g]]
      (by intro t ht; fin_cases ht <;> rfl)]
    rw [show lcsSpec
      [[a, c, g], [a, d, g], [a, e, g],
       [b, c, g], [b, d, g], [b, e, g]] = [g] from by
        simp [lcsSpec, show List.range 3 = [0, 1, 2] from rfl,
          List.filterMap_cons, Ne.symm hab, Ne.symm hcd, Ne.symm hce]]
    rfl
  have f22 : factorOne [[a, b], [c, d, e], [f, g, h, i]] [2, 3, 4] 'C' "-" 2 2 =
      .ok h := by
    unfold factorOne
    rw [show rowsFor [[a, b], [c, d, e], [f, g, h, i]] [2, 3, 4] 'C' 2 2 =
      [[a, c, h], [a, d, h], [a, e, h],
       [b, c, h], [b, d, h], [b, e, h]] from rfl]
    rw [lcs_eq_spec [a, c, h]
      [[a, d, h], [a, e, h], [b, c, h], [b, d, h], [b, e, h]]
      (by intro t ht; fin_cases ht <;> rfl)]
    rw [show lcsSpec
      [[a, c, h], [a, d, h], [a, e, h],
       [b, c, h], [b, d, h], [b, e, h]] = [h] from by
        simp [lcsSpec, show List.range 3 = [0, 1, 2] from rfl,
          List.filterMap_cons, Ne.symm hab, Ne.symm hcd, Ne.symm hce]]
    rfl
  have f23 : factorOne [[a, b], [c, d, e], [f, g, h, i]] [2, 3, 4] 'C' "-" 2 3 =
      .ok i := by
    unfold factorOne
    rw [show rowsFor [[a, b], [c, d, e], [f, g, h, i]] [2, 3, 4] 'C' 2 3 =
      [[a, c, i], [a, d, i], [a, e, i],
       [b, c, i], [b, d, i], [b, e, i]] from rfl]
    rw [lcs_eq_spec [a, c, i]
      [[a, d, i], [a, e, i], [b, c, i], [b, d, i], [b, e, i]]
      (by intro t ht; fin_cases ht <;> rfl)]
    rw [show lcsSpec
      [[a, c, i], [a, d, i], [a, e, i],
       [b, c, i], [b, d, i], [b, e, i]] = [i] from by
        simp [lcsSpec, show List.range 3 = [0, 1, 2] from rfl,
          List.filterMap_cons, Ne.symm hab, Ne.symm hcd, Ne.symm hce]]
    rfl
  have hax0 : axisFactor [[a, b], [c, d, e], [f, g, h, i]] [2, 3, 4] 'C' "-" 0 =
      .ok [a, b] := by
    apply axisFactor_eval
    · rfl
    · intro j hj
      match j, hj with
      | 0, _ => exact f00
      | 1, _ => exact f01
      | j + 2, hj => exact absurd hj (show ¬ (j + 2 < 2) by omega)
  have hax1 : axisFactor [[a, b], [c, d, e], [f, g, h, i]] [2, 3, 4] 'C' "-" 1 =
      .ok [c, d, e] := by
    apply axisFactor_eval
    · rfl
    · intro j hj
      match j, hj with
      | 0, _ => exact f10
      | 1, _ => exact f11
      | 2, _ => exact f12
      | j + 3, hj => exact absurd hj (show ¬ (j + 3 < 3) by omega)
  have hax2 : axisFactor [[a, b], [c, d, e], [f, g, h, i]] [2, 3, 4] 'C' "-" 2 =
      .ok [f, g, h, i] := by
    apply axisFactor_eval
    · rfl
    · intro j hj
      match j, hj with
      | 0, _ => exact f20
      | 1, _ => exact f21
      | 2, _ => exact f22
      | 3, _ => exact f23
      | j + 4, hj => exact absurd hj (show ¬ (j + 4 < 4) by omega)
  have hlabel : label_reshape
      [[.str a, .str b], [.str c, .str d, .str e],
       [.str f, .str g, .str h, .str i]] [2, 3, 4] 'C' "-" =
      .ok [[.str a, .str b], [.str c, .str d, .str e],
           [.str f, .str g, .str h, .str i]] := by
    apply label_reshape_eval
    · rfl
    · intro k hk
      match k, hk with
      | 0, _ =>
        unfold reshapeOneAxis
        rw [if_neg (by simp)]
        rw [show ([[Token.str a, .str b], [.str c, .str d, .str e],
          [.str f, .str g, .str h, .str i]].map (fun l => l.map Token.toStr)) =
          [[a, b], [c, d, e], [f, g, h, i]] from rfl]
        rw [hax0]
        rfl
      | 1, _ =>
        unfold reshapeOneAxis
        rw [if_neg (by simp)]
        rw [show ([[Token.str a, .str b], [.str c, .str d, .str e],
          [.str f, .str g, .str h, .str i]].map (fun l => l.map Token.toStr)) =
          [[a, b], [c, d, e], [f, g, h, i]] from rfl]
        rw [hax1]
        rfl
      | 2, _ =>
        unfold reshapeOneAxis
        rw [if_neg (by simp)]
        rw [show ([[Token.str a, .str b], [.str c, .str d, .str e],
          [.str f, .str g, .str h, .str i]].map (fun l => l.map Token.toStr)) =
          [[a, b], [c, d, e], [f, g, h, i]] from rfl]
        rw [hax2]
        rfl
      | k + 3, hk => exact absurd hk (show ¬ (k + 3 < 3) by omega)
  have hnd : NDArray.reshapeOrd ⟨[2, 3, 4], data⟩ [2, 3, 4] 'C' =
      .ok ⟨[2, 3, 4], data⟩ :=
    reshapeOrd_identity_C [2, 3, 4] data (by rw [hdata]; rfl)
  have hnew0 : Labels.new [Token.str a, .str b] = .ok [Token.str a, .str b] := by
    unfold Labels.new
    rw [show castTokens [Token.str a, .str b] = [Token.str a, .str b] from rfl]
    rw [if_pos (by simp [hab])]
  have hnew1 : Labels.new [Token.str c, .str d, .str e] =
      .ok [Token.str c, .str d, .str e] := by
    unfold Labels.new
    rw [show castTokens [Token.str c, .str d, .str e] =
      [Token.str c, .str d, .str e] from rfl]
    rw [if_pos (by simp [hcd, hce, hde])]
  have hnew2 : Labels.new [Token.str f, .str g, .str h, .str i] =
      .ok [Token.str f, .str g, .str h, .str i] := by
    unfold Labels.new
    rw [show castTokens [Token.str f, .str g, .str h, .str i] =
      [Token.str f, .str g, .str h, .str i] from rfl]
    rw [if_pos (by simp [hfg, hfh, hfi, hgh, hgi, hhi])]
  have hLN : labelsNewAll [[Token.str a, .str b], [.str c, .str d, .str e],
      [.str f, .str g, .str h, .str i]] =
      .ok [[Token.str a, .str b], [.str c, .str d, .str e],
           [.str f, .str g, .str h, .str i]] :=
    labelsNewAll_cons_ok hnew0 (labelsNewAll_cons_ok hnew1
      (labelsNewAll_cons_ok hnew2 rfl))
  show (do
    let nd ← NDArray.reshapeOrd ⟨[2, 3, 4], data⟩ [2, 3, 4] 'C'
    let nl ← label_reshape [[Token.str a, .str b], [.str c, .str d, .str e],
      [.str f, .str g, .str h, .str i]] [2, 3, 4] 'C' "-"
    LabeledArray.new nd nl) = _
  rw [hnd, hlabel]
  show LabeledArray.new ⟨[2, 3, 4], data⟩
    [[Token.str a, .str b], [.str c, .str d, .str e],
     [.str f, .str g, .str h, .str i]] = _
  unfold LabeledArray.new
  rw [show paddedLabels ⟨[2, 3, 4], data⟩
    [[Token.str a, .str b], [.str c, .str d, .str e],
     [.str f, .str g, .str h, .str i]] =
    [[Token.str a, .str b], [.str c, .str d, .str e],
     [.str f, .str g, .str h, .str i]] from rfl]
  rw [hLN]
  rfl

/-- C8 witness: the canonical `(2,3,4)` array with labels
`(a,b) × (c,d,e) × (f,g,h,i)` over the buffer `0..23`. -/
theorem c8_trivial_reshape_identity_witness :
    LabeledArray.reshapeRelabeled
      ⟨[2, 3, 4], List.replicate 24 (some 1),
       [[.str "a", .str "b"], [.str "c", .str "d", .str "e"],
        [.str "f", .str "g", .str "h", .str "i"]]⟩ [2, 3, 4] 'C' =
      .ok ⟨[2, 3, 4], List.replicate 24 (some 1),
        [[.str "a", .str "b"], [.str "c", .str "d", .str "e"],
         [.str "f", .str "g", .str "h", .str "i"]]⟩ := by
  exact c8_trivial_reshape_identity "a" "b" "c" "d" "e" "f" "g" "h" "i"
    (List.replicate 24 (some 1))
    (by decide) (by decide) (by decide) (by decide) (by decide) (by decide)
    (by decide) (by decide) (by decide) (by decide) (by simp)

example : Labels.new [.str "a", .str "b"] = .ok [.str "a", .str "b"] := by decide
example : Labels.new [.str "a", .str "a"] = .error .assertionError := by decide
example : Labels.new [.num 0, .num 1] = .ok [.num 0, .num 1] := by decide
example : Labels.find [.str "x", .str "y"] (.str "y") = .ok 1 := by decide
example : Labels.find [.str "x", .str "y"] (.str "z") = .error (.nameError "arr") := by decide
example : Labels.matmul [.str "a", .str "b"] [.str "c", .str "d", .str "e"] "-" =
    .ok [[.str "a-c", .str "a-d", .str "a-e"], [.str "b-c", .str "b-d", .str "b-e"]] := by decide
example : Labels.decompose2 [[.str "g", .str "h"], [.str "f", .str "i"]] "-" =
    .ok [[.str "g-h", .str "f-i"], [.str "g-f", .str "h-i"]] := by decide
example : Labels.decompose2 [[.str "a-c", .str "a-d", .str "a-e"],
    [.str "b-c", .str "b-d", .str "b-e"]] "-" = .error .valueError := by decide

/- scratch sanity checks (doctest: concatenate_arrays examples) -/
example : concatenate_arrays
    [⟨[3], [some 1, some 2, some 3]⟩, ⟨[2], [some 4, some 5]⟩] (some 0) =
    .ok ⟨[5], [some 1, some 2, some 3, some 4, some 5]⟩ := by decide

example : concatenate_arrays
    [⟨[3], [some 1, some 2, some 3]⟩, ⟨[2], [some 4, some 5]⟩] none =
    .ok ⟨[2, 3], [some 1, some 2, some 3, some 4, some 5, nanv]⟩ := by decide

example : concatenate_arrays
    [⟨[2, 2], [some 1, some 2, some 3, some 4]⟩,
     ⟨[2, 3], [some 5, some 6, some 7, some 8, some 9, some 10]⟩] (some 0) =
    .ok ⟨[4, 3], [some 1, some 2, nanv, some 3, some 4, nanv,
                  some 5, some 6, some 7, some 8, some 9, some 10]⟩ := by decide

example : LabeledArray.combine
    ⟨[2, 3], [some 1, some 2, some 3, some 4, some 5, some 6],
     [[.str "a", .str "b"], [.str "c", .str "d", .str "e"]]⟩ (0, 1) =
    .ok ⟨[6], [some 1, some 2, some 3, some 4, some 5, some 6],
         [[.str "a-c", .str "a-d", .str "a-e",
           .str "b-c", .str "b-d", .str "b-e"]]⟩ := by decide

/- scratch: the C2 scenario and docstring indexing examples -/
example : LabeledArray.getitem
    ⟨[2, 2], [some 1, some 1, some 1, some 1],
     [[.str "x", .str "y"], [.str "p", .str "q"]]⟩ [.str "x"] =
    .ok (.arr ⟨[2], [some 1, some 1], [[.str "p", .str "q"]]⟩) := by decide

example : LabeledArray.getitem
    ⟨[2, 2], [some 1, some 2, some 3, some 4],
     [[.str "x", .str "y"], [.str "p", .str "q"]]⟩ [.str "y", .str "p"] =
    .ok (.scalar (some 3)) := by decide

example : LabeledArray.getitem
    ⟨[2, 2], [some 1, some 2, some 3, some 4],
     [[.str "x", .str "y"], [.str "p", .str "q"]]⟩ [.int (-1)] =
    .ok (.arr ⟨[2], [some 3, some 4], [[.str "p", .str "q"]]⟩) := by decide

example : LabeledArray.getitem
    ⟨[2, 2], [some 1, some 2, some 3, some 4],
     [[.str "x", .str "y"], [.str "p", .str "q"]]⟩
      [.list [.str "y", .str "x"], .int 0] =
    .ok (.arr ⟨[2], [some 3, some 1], [[.str "y", .str "x"]]⟩) := by decide

example : LabeledArray.getitem
    ⟨[2, 2], [some 1, some 1, some 1, some 1],
     [[.str "x", .str "y"], [.str "p", .str "q"]]⟩ [.str "z"] =
    .error (.nameError "arr") := by decide

example : LabeledArray.setitem
    ⟨[2, 2], [some 1, some 2, some 3, some 4],
     [[.str "x", .str "y"], [.str "p", .str "q"]]⟩ [.str "y", .str "q"] 9 =
    .ok ⟨[2, 2], [some 1, some 2, some 3, some 9],
         [[.str "x", .str "y"], [.str "p", .str "q"]]⟩ := by decide

example : LabeledArray.setitem
    ⟨[2, 2], [some 1, some 2, some 3, some 4],
     [[.str "x", .str "y"], [.str "p", .str "q"]]⟩ [.str "z"] 9 =
    .error (.nameError "arr") := by decide

/- scratch: the C5 scenario and the from_dict docstring example -/
example : LabeledArray.from_dict
    (.dict (.cons (.str "a")
      (.dict (.cons (.str "b") (.scalar 1) (.cons (.str "c") (.scalar 2) .nil)))
      (.cons (.str "d") (.dict (.cons (.str "b") (.scalar 3) .nil)) .nil))) =
    .ok ⟨[2, 2], [some 1, some 2, some 3, nanv],
         [[.str "a", .str "d"], [.str "b", .str "c"]]⟩ := by decide

/- scratch: label_reshape docstring examples -/
example : label_reshape
    [[.str "az", .str "b"], [.str "c", .str "d", .str "e"],
     [.str "f", .str "g", .str "h", .str "i"]] [6, 4] 'C' "-" =
    .ok [[.str "az-c", .str "az-d", .str "az-e", .str "b-c", .str "b-d", .str "b-e"],
         [.str "f", .str "g", .str "h", .str "i"]] := by decide

example : label_reshape
    [[.str "az", .str "b"], [.str "c", .str "d", .str "e"],
     [.str "f", .str "g", .str "h", .str "i"]] [6, 4] 'F' "-" =
    .ok [[.str "az-c", .str "b-c", .str "az-d", .str "b-d", .str "az-e", .str "b-e"],
         [.str "f", .str "g", .str "h", .str "i"]] := by decide

example : label_reshape
    [[.str "az", .str "b"], [.str "c", .str "d", .str "e"],
     [.str "f", .str "g", .str "h", .str "i"]] [3, 2, 4] 'C' "-" =
    .ok [[.str "az", .str "az-b", .str "b"], [.str "c-d-e", .str "c-d-e"],
         [.str "f", .str "g", .str "h", .str "i"]] := by decide

example : label_reshape
    [[.str "az", .str "b"], [.str "c", .str "d", .str "e"],
     [.num 1, .num 2, .num 3, .num 4]] [6, 4] 'C' "-" =
    .ok [[.str "az-c", .str "az-d", .str "az-e", .str "b-c", .str "b-d", .str "b-e"],
         [.num 1, .num 2, .num 3, .num 4]] := by decide

example : label_reshape
    [[.str "a", .str "b"], [.str "c", .str "d", .str "e"],
     [.str "f", .str "g", .str "h", .str "i"]] [2, 3, 4] 'C' "-" =
    .ok [[.str "a", .str "b"], [.str "c", .str "d", .str "e"],
         [.str "f", .str "g", .str "h", .str "i"]] := by decide

example : LabeledArray.reshapeRelabeled
    ⟨[2, 2], [some 1, some 2, some 3, some 4],
     [[.str "x", .str "y"], [.str "p", .str "q"]]⟩ [2, 2] 'C' =
    .ok ⟨[2, 2], [some 1, some 2, some 3, some 4],
         [[.str "x", .str "y"], [.str "p", .str "q"]]⟩ := by decide

example : LabeledArray.from_dict
    (.dict (.cons (.str "a")
      (.dict (.cons (.str "b") (.dict (.cons (.str "c") (.scalar 1) .nil)) .nil))
      (.cons (.str "d")
        (.dict (.cons (.str "b")
          (.dict (.cons (.str "c") (.scalar 2) (.cons (.str "e") (.scalar 3) .nil))) .nil))
        .nil))) =
    .ok ⟨[2, 1, 2], [some 1, nanv, some 2, some 3],
         [[.str "a", .str "d"], [.str "b"], [.str "c", .str "e"]]⟩ := by decide
